import Mathlib

set_option maxRecDepth 4000

/-!
Shallow embedding of the feecc-workbench-daemon core: the workbench
finite-state machine (`WorkBench.py`), the unit entity and its production
lifecycle (`Unit.py`), assignment-target resolution (`workbench_utils.py`)
and the persistence synchronization protocol (`database.py`).

Machine-level conventions of the embedding:
* timestamps (stored textually in the source, parsed by `strptime`) are
  modelled by their parsed values as integers;
* in-place mutation of Python objects becomes explicit state passing;
* a raised exception becomes the `Except.error` branch, carrying the
  state as it was at the raise point so absence of partial mutation is
  expressible;
* MongoDB collections become lists of documents, `insert_one` appends,
  `find_one` returns the first match in collection order.
-/

namespace Feecc

/-- Modelled from the spec: `unit_utils.py` is absent from the sources; the
unit status enum `status ∈ {production, built, revision}` is taken from the
data-model section of the spec. -/
inductive UnitStatus where
  | production
  | built
  | revision
deriving DecidableEq, Repr

/-- Modelled from the spec: the `Employee` module is absent from the sources;
fields are the spec's `id` (card identifier), `name`, `position`, plus the
`rfid_card_id` and `passport_code` attributes referenced by `WorkBench.py`
and `Unit.py`. -/
structure Employee where
  rfid_card_id : String
  name : String
  position : String
  passport_code : String
deriving DecidableEq, Repr

/-- Modelled from the spec: stage templates of a production schema
(`models.py` is absent from the sources).  A template carries the display
name and the schema stage id copied into seeded biography entries. -/
structure ProductionStageTemplate where
  name : String
  stage_id : String
deriving DecidableEq, Repr

/-- Modelled from the spec: `ProductionSchema` reference data (`models.py`
is absent from the sources): `schema_id`, `unit_name`,
`required_components_schema_ids[]` (optional in the source, hence
`Option`), stage templates and the composite/component flags used by
`WorkBench.py`. -/
structure ProductionSchema where
  schema_id : String
  unit_name : String
  production_stages : List ProductionStageTemplate
  required_components_schema_ids : Option (List String)
  is_composite : Bool
  is_a_component : Bool
deriving DecidableEq, Repr

/-- Additional info attached to a production stage: a string-keyed map,
modelled as an association list in insertion order. -/
abbrev AdditionalInfo := List (String × String)

/-- Python `{**a, **b}` dictionary merge: keys of `a` keep their position
(with `b`'s value when overridden), keys only in `b` are appended. -/
def dictMerge (a b : AdditionalInfo) : AdditionalInfo :=
  (a.map fun kv =>
    match b.find? (fun kv2 => kv2.1 == kv.1) with
    | some kv2 => (kv.1, kv2.2)
    | none => kv)
  ++ b.filter fun kv => !(a.any fun kv0 => kv0.1 == kv.1)

/-- Modelled from the spec: the `ProductionStage` dataclass
(`ProductionStage.py` is absent from the sources); fields follow the spec's
data model and persisted document shape, plus the `schema_stage_id` field
referenced by `Unit._duplicate_current_operation`. -/
structure ProductionStage where
  id : String
  name : String
  parent_unit_uuid : String
  number : Nat
  schema_stage_id : String
  session_start_time : Option Int
  session_end_time : Option Int
  ended_prematurely : Bool
  video_hashes : List String
  additional_info : Option AdditionalInfo
  is_in_db : Bool
  completed : Bool
  employee_name : Option String
deriving DecidableEq, Repr

/-- Modelled from the spec: default field values of a freshly constructed
`ProductionStage` (dataclass defaults): not started, not completed, not in
the database.  The unique stage id (a generated uuid in the source) is
abstracted as the empty string; no claim depends on stage ids. -/
def ProductionStage.fresh (name parent_unit_uuid : String) (number : Nat)
    (schema_stage_id : String) : ProductionStage where
  id := ""
  name := name
  parent_unit_uuid := parent_unit_uuid
  number := number
  schema_stage_id := schema_stage_id
  session_start_time := none
  session_end_time := none
  ended_prematurely := false
  video_hashes := []
  additional_info := none
  is_in_db := false
  completed := false
  employee_name := none

/-- Modelled from the spec: `biography_factory` (`unit_utils.py` is absent
from the sources) seeds the biography from the schema's stage templates,
one pending entry per template, numbered contiguously from 0. -/
def biographyFactory (schema : ProductionSchema) (parent_unit_uuid : String) :
    List ProductionStage :=
  schema.production_stages.enum.map fun p =>
    ProductionStage.fresh p.2.name parent_unit_uuid p.1 p.2.stage_id

/-- Modelled from the spec: the workbench state enum (`states.py` is absent
from the sources). -/
inductive State where
  | AWAIT_LOGIN
  | AUTHORIZED_IDLING
  | UNIT_ASSIGNED_IDLING
  | GATHER_COMPONENTS
  | PRODUCTION_STAGE_ONGOING
deriving DecidableEq, Repr

/-- Modelled from the spec: `STATE_TRANSITION_MAP` (`states.py` is absent
from the sources), transcribed from the transition table of the spec. -/
def STATE_TRANSITION_MAP : State → List State
  | .AWAIT_LOGIN => [.AUTHORIZED_IDLING]
  | .AUTHORIZED_IDLING => [.AWAIT_LOGIN, .UNIT_ASSIGNED_IDLING, .GATHER_COMPONENTS]
  | .UNIT_ASSIGNED_IDLING => [.AUTHORIZED_IDLING, .PRODUCTION_STAGE_ONGOING]
  | .GATHER_COMPONENTS => [.AUTHORIZED_IDLING, .UNIT_ASSIGNED_IDLING]
  | .PRODUCTION_STAGE_ONGOING => [.UNIT_ASSIGNED_IDLING]

/-- Field record of a unit; the recursive knot is tied by `Unit` below so
that record-update syntax stays available.  Fields follow `Unit.__init__`
(`Unit.py`). -/
structure UnitF (α : Type) where
  status : UnitStatus
  schema : ProductionSchema
  uuid : String
  internal_id : String
  passport_short_url : Option String
  passport_ipfs_cid : Option String
  txn_hash : Option String
  serial_number : Option String
  components_units : List α
  featured_in_int_id : Option String
  employee : Option Employee
  biography : List ProductionStage
  is_in_db : Bool
  creation_time : Int

/-- A production unit (`Unit.py`): identity, schema, status, ordered
biography, owned component sub-units. -/
inductive Unit where
  | mk : UnitF Unit → Unit

/-- Unwrap the field record of a unit. -/
def Unit.data : Unit → UnitF Unit
  | .mk d => d

/-- Rewrap a field record. -/
def Unit.withData (d : UnitF Unit) : Unit := .mk d

@[simp]
theorem Unit.data_mk (d : UnitF Unit) : (Unit.mk d).data = d := rfl

@[simp]
theorem Unit.mk_data (u : Unit) : Unit.mk u.data = u := by
  cases u with
  | mk d => rfl

/-- `Unit.components_schema_ids`: the schema's required component ids, with
the Python `or []` defaulting of a missing list. -/
def Unit.components_schema_ids (u : Unit) : List String :=
  u.data.schema.required_components_schema_ids.getD []

/-- `Unit.components_internal_ids`. -/
def Unit.components_internal_ids (u : Unit) : List String :=
  u.data.components_units.map fun c => c.data.internal_id

/-- `Unit.model_name`. -/
def Unit.model_name (u : Unit) : String :=
  u.data.schema.unit_name

/-- `Unit.components_filled` (`Unit.py`): true when no component ids are
required; otherwise false for an empty component list, else a bare length
comparison between required ids and attached components. -/
def Unit.components_filled (u : Unit) : Bool :=
  if !u.components_schema_ids.isEmpty then
    if u.data.components_units.isEmpty then false
    else u.components_schema_ids.length == u.data.components_units.length
  else true

/-- `Unit.next_pending_operation`: the first biography entry that is not
completed, in list order. -/
def Unit.next_pending_operation (u : Unit) : Option ProductionStage :=
  u.data.biography.find? fun op => !op.completed

/-- Session length of one stage (`stage_len` inside
`Unit.total_assembly_time`): zero without a start time, otherwise the end
time — or the current time when no end is recorded — minus the start
time. -/
def stageLen (now : Int) (stage : ProductionStage) : Int :=
  match stage.session_start_time with
  | none => 0
  | some start => (stage.session_end_time.getD now) - start

/-- `Unit.total_assembly_time`: `reduce(add, ...)` over the per-stage
lengths when the biography is non-empty (a left fold seeded with the first
element), zero otherwise. -/
def Unit.total_assembly_time (u : Unit) (now : Int) : Int :=
  match u.data.biography with
  | [] => 0
  | s :: rest => (rest.map (stageLen now)).foldl (· + ·) (stageLen now s)

/-- `Unit.assign_component` (`Unit.py`): validates in order and returns the
updated composite together with the updated component.  When the component
requirements are already satisfied the source only logs an error and
returns normally, leaving both units untouched; the four remaining
violations each raise a `ValueError` with a distinct message. -/
def Unit.assign_component (self component : Unit) :
    Except String (Unit × Unit) :=
  if self.components_filled then
    .ok (self, component)
  else if self.components_schema_ids.contains component.data.schema.schema_id then
    if !(self.data.components_units.map fun c => c.data.schema.schema_id).contains
        component.data.schema.schema_id then
      if component.data.status ≠ UnitStatus.built then
        .error ("Component " ++ component.model_name ++ " assembly is not completed.")
      else if component.data.featured_in_int_id.isSome then
        .error ("Component " ++ component.model_name ++ " has already been used in unit "
          ++ component.data.featured_in_int_id.getD "")
      else
        let component := Unit.withData
          { component.data with featured_in_int_id := some self.data.internal_id }
        .ok (Unit.withData
          { self.data with components_units := self.data.components_units ++ [component] },
          component)
    else
      .error ("Component " ++ component.model_name
        ++ " is already assigned to a composite Unit " ++ self.model_name)
  else
    .error ("Cannot assign component " ++ component.model_name ++ " to "
      ++ self.model_name ++ " as it is not a component of it")

/-- Replace the entry at index `n` by `f` of itself, when it exists
(in-place mutation of a list element in the source). -/
def listModify (l : List α) (n : Nat) (f : α → α) : List α :=
  match l[n]? with
  | some x => l.set n (f x)
  | none => l

/-- Python `list.insert(pos, x)`: positions past the end append. -/
def pyInsert (l : List α) (pos : Nat) (x : α) : List α :=
  if pos ≥ l.length then l ++ [x] else l.insertIdx pos x

/-- `Unit.start_operation` (`Unit.py`): locate the next pending biography
entry (assertion failure when none exists), stamp the start time, attach
info and the employee's passport code, then additionally write the entry
back at index `number` (the source's aliased self-assignment
`self.biography[operation.number] = operation`, an `IndexError` when the
number is out of range). -/
def Unit.start_operation (u : Unit) (employee : Employee)
    (additional_info : Option AdditionalInfo) (now : Int) :
    Except String Unit :=
  match u.data.biography.findIdx? (fun op => !op.completed) with
  | none => .error "AssertionError: no pending operations"
  | some i =>
    let bio := u.data.biography
    let op := bio.getD i (ProductionStage.fresh "" "" 0 "")
    let op := { op with
      session_start_time := some now
      additional_info := additional_info
      employee_name := some employee.passport_code }
    let bio := bio.set i op
    if op.number < bio.length then
      .ok (Unit.withData { u.data with biography := bio.set op.number op })
    else
      .error "IndexError"

/-- Suffix of the premature-termination marker appended to the ended
stage's display name (`Unit.end_operation`). -/
def prematureMarker : String := " (??????????????????.)"

/-- `Unit._duplicate_current_operation` together with the caller's side of
`Unit.end_operation` (`Unit.py`), with the Python object alias of the ended
entry made explicit: the alias starts at the index `i` of the first
non-completed entry and keeps pointing at the same entry after the clone is
inserted at index `number + 1`.  All mutations of the aliased object are
reads followed by writes at its current index. -/
def Unit.end_operation (u : Unit) (video_hashes : List String)
    (additional_info : Option AdditionalInfo) (premature : Bool)
    (override_timestamp : Option Int) (now : Int) :
    Except String Unit :=
  match u.data.biography.findIdx? (fun op => !op.completed) with
  | none => .error "No pending operations found"
  | some i =>
    let bio := u.data.biography
    -- operation.session_end_time = override_timestamp or timestamp()
    let bio := listModify bio i fun op =>
      { op with session_end_time := some (override_timestamp.getD now) }
    -- premature branch: _duplicate_current_operation, then marker and flag
    let step : Except String (List ProductionStage × Nat) :=
      if premature then
        -- cur_stage = self.next_pending_operation (still the aliased entry)
        match bio.findIdx? (fun op => !op.completed) with
        | none => .error "AssertionError: no pending stages to duplicate"
        | some j =>
          let cur := bio.getD j (ProductionStage.fresh "" "" 0 "")
          let target_pos := cur.number + 1
          let dup := ProductionStage.fresh cur.name cur.parent_unit_uuid
            target_pos cur.schema_stage_id
          let bio := pyInsert bio target_pos dup
          -- renumber every entry after the inserted clone
          let bio := bio.mapIdx fun k s =>
            if k ≥ target_pos + 1 then { s with number := s.number + 1 } else s
          -- the alias shifts right when the insertion lands at or before it
          let a := if i < target_pos then i else i + 1
          let bio := listModify bio a fun op =>
            { op with name := op.name ++ prematureMarker, ended_prematurely := true }
          .ok (bio, a)
      else
        .ok (bio, i)
    match step with
    | .error e => .error e
    | .ok (bio, a) =>
      let bio := if !video_hashes.isEmpty then
        listModify bio a fun op => { op with video_hashes := video_hashes }
      else bio
      -- Python `if additional_info:` — false for `None` and for an empty dict
      let bio := match additional_info with
        | some info =>
          if !info.isEmpty then
            listModify bio a fun op =>
              { op with additional_info :=
                  match op.additional_info with
                  | some old => some (dictMerge old info)
                  | none => some info }
          else bio
        | none => bio
      let bio := listModify bio a fun op => { op with completed := true }
      -- self.biography[operation.number] = operation
      let op := bio.getD a (ProductionStage.fresh "" "" 0 "")
      if op.number < bio.length then
        let bio := bio.set op.number op
        let status := if bio.all (fun s => s.completed) then UnitStatus.built
          else u.data.status
        .ok (Unit.withData
          { u.data with biography := bio, status := status, employee := none })
      else
        .error "IndexError"

mutual

/-- `_get_unit_list` (`workbench_utils.py`): the unit followed by the
depth-first traversal of its component tree. -/
def getUnitList : Unit → List Unit
  | .mk d => .mk d :: getUnitListMany d.components_units

/-- Concatenated `_get_unit_list` over a component list. -/
def getUnitListMany : List Unit → List Unit
  | [] => []
  | c :: cs => getUnitList c ++ getUnitListMany cs

end

/-- The workbench's allowed assignment statuses
(`WorkBench.assign_unit`). -/
def allowedStatuses : List UnitStatus := [.production, .revision]

/-- `determine_asssignment_target` (`workbench_utils.py`): the unit itself
when its status is allowed or the built-but-unpublished override holds;
otherwise the first unit in its component tree with an allowed status, and
only failing that the unit itself flagged as not assignable. -/
def determineAssignmentTarget (unit : Unit) (allowed : List UnitStatus) :
    Unit × Bool :=
  let override := unit.data.status == UnitStatus.built
    && unit.data.passport_ipfs_cid.isNone
  if allowed.contains unit.data.status || override then (unit, true)
  else
    match (getUnitList unit).find? (fun c => allowed.contains c.data.status) with
    | some component => (component, true)
    | none => (unit, false)

/-- Workbench error taxonomy as raised by `WorkBench.py`:
`StateForbiddenError` for illegal transitions, `AssertionError` for missing
preconditions, `ValueError` propagated from unit-level validation. -/
inductive WError where
  | stateForbidden
  | assertionError
  | valueError (msg : String)
deriving DecidableEq, Repr

/-- The per-desk workbench state (`WorkBench.__init__`): current employee,
current unit, current FSM state. -/
structure Workbench where
  employee : Option Employee
  unit : Option Unit
  state : State

/-- Result type of a mutating workbench operation: on an exception the
workbench is returned as it was at the raise point, so the absence of
partial mutation is an equality with the input. -/
abbrev WBResult := Except (WError × Workbench) Workbench

/-- `WorkBench._validate_state_transition`: membership of the requested
target in the transition map row of the current state. -/
def validTransition (wb : Workbench) (new_state : State) : Bool :=
  (STATE_TRANSITION_MAP wb.state).contains new_state

/-- `WorkBench.switch_state`: validate, then apply the new state. -/
def switchState (wb : Workbench) (new_state : State) : WBResult :=
  if validTransition wb new_state then .ok { wb with state := new_state }
  else .error (.stateForbidden, wb)

/-- `WorkBench.log_in`: validate the transition to `AUTHORIZED_IDLING`, set
the employee, switch state. -/
def logIn (wb : Workbench) (employee : Employee) : WBResult :=
  if validTransition wb .AUTHORIZED_IDLING then
    switchState { wb with employee := some employee } .AUTHORIZED_IDLING
  else .error (.stateForbidden, wb)

/-- `WorkBench.remove_unit`: validate the transition to
`AUTHORIZED_IDLING`, require a unit to be present, clear it, switch
state. -/
def removeUnit (wb : Workbench) : WBResult :=
  if validTransition wb .AUTHORIZED_IDLING then
    match wb.unit with
    | none => .error (.assertionError, wb)
    | some _ => switchState { wb with unit := none } .AUTHORIZED_IDLING
  else .error (.stateForbidden, wb)

/-- `WorkBench.log_out`: validate the transition to `AWAIT_LOGIN`, cascade
through `remove_unit` when the state is `UNIT_ASSIGNED_IDLING`, require an
employee, clear it, switch state. -/
def logOut (wb : Workbench) : WBResult :=
  if validTransition wb .AWAIT_LOGIN then
    match (if wb.state = State.UNIT_ASSIGNED_IDLING then removeUnit wb else .ok wb :
        WBResult) with
    | .error e => .error e
    | .ok wb1 =>
      match wb1.employee with
      | none => .error (.assertionError, wb1)
      | some _ => switchState { wb1 with employee := none } .AWAIT_LOGIN
  else .error (.stateForbidden, wb)

/-- `WorkBench.assign_unit`: validate the transition to
`UNIT_ASSIGNED_IDLING`, resolve the assignment target, fail with an
assertion when no target is assignable, otherwise set the unit and enter
`GATHER_COMPONENTS` when its component requirements are unsatisfied, else
`UNIT_ASSIGNED_IDLING`. -/
def assignUnit (wb : Workbench) (unit : Unit) : WBResult :=
  if validTransition wb .UNIT_ASSIGNED_IDLING then
    match determineAssignmentTarget unit allowedStatuses with
    | (_, false) => .error (.assertionError, wb)
    | (target, true) =>
      let wb1 := { wb with unit := some target }
      if !target.components_filled then switchState wb1 .GATHER_COMPONENTS
      else switchState wb1 .UNIT_ASSIGNED_IDLING
  else .error (.stateForbidden, wb)

/-- `WorkBench.start_operation`: validate the transition to
`PRODUCTION_STAGE_ONGOING`, require a unit and an employee, delegate to
`Unit.start_operation`, switch state.  The camera call is an external side
channel without effect on workbench fields. -/
def startOperation (wb : Workbench) (additional_info : Option AdditionalInfo)
    (now : Int) : WBResult :=
  if validTransition wb .PRODUCTION_STAGE_ONGOING then
    match wb.unit with
    | none => .error (.assertionError, wb)
    | some u =>
      match wb.employee with
      | none => .error (.assertionError, wb)
      | some e =>
        match u.start_operation e additional_info now with
        | .error _ => .error (.assertionError, wb)
        | .ok u1 => switchState { wb with unit := some u1 } .PRODUCTION_STAGE_ONGOING
  else .error (.stateForbidden, wb)

/-- `WorkBench.end_operation`: validate the transition to
`UNIT_ASSIGNED_IDLING`, require a unit, delegate to `Unit.end_operation`
(recording and publishing failures are caught in the source and only empty
the video hash list, so the hashes are a parameter), persist (external),
switch state. -/
def endOperation (wb : Workbench) (additional_info : Option AdditionalInfo)
    (premature : Bool) (ipfs_hashes : List String) (now : Int) : WBResult :=
  if validTransition wb .UNIT_ASSIGNED_IDLING then
    match wb.unit with
    | none => .error (.assertionError, wb)
    | some u =>
      match u.end_operation ipfs_hashes additional_info premature (some now) now with
      | .error msg => .error (.valueError msg, wb)
      | .ok u1 => switchState { wb with unit := some u1 } .UNIT_ASSIGNED_IDLING
  else .error (.stateForbidden, wb)

/-- Status value string as serialized into documents. -/
def UnitStatus.value : UnitStatus → String
  | .production => "production"
  | .built => "built"
  | .revision => "revision"

/-- Modelled from the spec: the persisted unit document shape
(`Unit.dict_data` is absent from the sources; the field list is the spec's
stored unit document shape). -/
structure UnitDoc where
  uuid : String
  internal_id : String
  schema_id : String
  status : String
  components_internal_ids : List String
  featured_in_int_id : Option String
  passport_short_url : Option String
  passport_ipfs_cid : Option String
  txn_hash : Option String
  serial_number : Option String
  creation_time : Int
  is_in_db : Bool
deriving DecidableEq, Repr

/-- Modelled from the spec: `Unit.dict_data`, projecting a unit onto the
stored unit document shape. -/
def Unit.dict_data (u : Unit) : UnitDoc where
  uuid := u.data.uuid
  internal_id := u.data.internal_id
  schema_id := u.data.schema.schema_id
  status := u.data.status.value
  components_internal_ids := u.components_internal_ids
  featured_in_int_id := u.data.featured_in_int_id
  passport_short_url := u.data.passport_short_url
  passport_ipfs_cid := u.data.passport_ipfs_cid
  txn_hash := u.data.txn_hash
  serial_number := u.data.serial_number
  creation_time := u.data.creation_time
  is_in_db := u.data.is_in_db

/-- The durable store (`MongoDbWrapper` collections): unit documents,
production-stage documents (`asdict` of a stage keeps every field, so a
stage document is the stage itself), and the static schema collection.
Inserts append; `find_one` takes the first match in collection order. -/
structure DB where
  unitDocs : List UnitDoc
  stageDocs : List ProductionStage
  schemaDocs : List ProductionSchema

/-- `MongoDbWrapper.upload_production_stage`: return unchanged when the
stage is already stored, otherwise set `is_in_db` first and insert the
flagged document. -/
def uploadProductionStage (stage : ProductionStage) (db : DB) :
    ProductionStage × DB :=
  if stage.is_in_db then (stage, db)
  else
    let stage := { stage with is_in_db := true }
    (stage, { db with stageDocs := db.stageDocs ++ [stage] })

/-- The stage loop of `MongoDbWrapper.upload_unit` over a biography. -/
def uploadStages : List ProductionStage → DB → List ProductionStage × DB
  | [], db => ([], db)
  | s :: rest, db =>
    let (s1, db1) := uploadProductionStage s db
    let (rest1, db2) := uploadStages rest db1
    (s1 :: rest1, db2)

mutual

/-- `MongoDbWrapper.upload_unit`: upload every component depth-first, then
return without writing when the unit is already stored; otherwise set
`is_in_db`, take the document snapshot, upsert every biography stage, and
insert the unit document exactly once. -/
def uploadUnit : Unit → DB → Unit × DB
  | .mk d, db =>
    let (cs, db1) := uploadComponents d.components_units db
    let u1 : Unit := .mk { d with components_units := cs }
    if u1.data.is_in_db then (u1, db1)
    else
      let u2 : Unit := .mk { u1.data with is_in_db := true }
      let doc := u2.dict_data
      let (bio, db2) := uploadStages u2.data.biography db1
      let u3 : Unit := .mk { u2.data with biography := bio }
      (u3, { db2 with unitDocs := db2.unitDocs ++ [doc] })

/-- The component loop of `MongoDbWrapper.upload_unit`. -/
def uploadComponents : List Unit → DB → List Unit × DB
  | [], db => ([], db)
  | c :: cs, db =>
    let (c1, db1) := uploadUnit c db
    let (cs1, db2) := uploadComponents cs db1
    (c1 :: cs1, db2)

end

/-- `MongoDbWrapper.upload_production_stage` with a fallible insert: the
flag is set before the insert is issued, so when the insert raises the
error carries a stage whose `is_in_db` is already true and an unchanged
store. -/
def uploadProductionStageF (stage : ProductionStage) (db : DB)
    (insertRaises : Bool) : Except (ProductionStage × DB) (ProductionStage × DB) :=
  if stage.is_in_db then .ok (stage, db)
  else
    let stage := { stage with is_in_db := true }
    if insertRaises then .error (stage, db)
    else .ok (stage, { db with stageDocs := db.stageDocs ++ [stage] })

/-- `MongoDbWrapper.upload_unit` with a fallible unit-document insert (the
component and stage writes succeed): the unit flag is set before the
insert, so when the insert raises the error carries a unit whose
`is_in_db` is already true. -/
def uploadUnitF (u : Unit) (db : DB) (insertRaises : Bool) :
    Except (Unit × DB) (Unit × DB) :=
  let (cs, db1) := uploadComponents u.data.components_units db
  let u1 : Unit := .mk { u.data with components_units := cs }
  if u1.data.is_in_db then .ok (u1, db1)
  else
    let u2 : Unit := .mk { u1.data with is_in_db := true }
    let doc := u2.dict_data
    let (bio, db2) := uploadStages u2.data.biography db1
    let u3 : Unit := .mk { u2.data with biography := bio }
    if insertRaises then .error (u3, db2)
    else .ok (u3, { db2 with unitDocs := db2.unitDocs ++ [doc] })

/-- `MongoDbWrapper.get_schema_by_id`: first match in the schema
collection, an error when absent. -/
def getSchemaById (db : DB) (schema_id : String) : Except String ProductionSchema :=
  match db.schemaDocs.find? (fun s => s.schema_id == schema_id) with
  | none => .error ("Schema " ++ schema_id ++ " not found")
  | some s => .ok s

/-- Default stage used only as the unreachable fallback of safe list
indexing. -/
def defaultStage : ProductionStage := ProductionStage.fresh "" "" 0 ""

mutual

/-- `MongoDbWrapper.get_unit_by_internal_id`: find the unit document by
internal id (first match), collect and stably sort its stage documents by
`number`, fetch the schema, recursively fetch every listed component, and
reassemble through the `Unit` constructor; the constructor defaults apply
to every field not passed by the source — `status` restarts at
`production` (degrading to `built` for a stage-less schema),
`passport_ipfs_cid`, `txn_hash` and `serial_number` restart at `None`, the
creation time at the current time, and an empty stage list falls back to
`biography_factory`.  Every exception, including the recursion limit
(Python's `RecursionError`), is caught and surfaces as
`UnitNotFoundError`.  `fuel` bounds the recursion depth. -/
def getUnitByInternalId : Nat → DB → String → Int → Except String Unit
  | 0, _, _, _ => .error "UnitNotFoundError"
  | fuel + 1, db, iid, now =>
    match db.unitDocs.find? (fun d => d.internal_id == iid) with
    | none => .error "UnitNotFoundError"
    | some doc =>
      let stages := db.stageDocs.filter fun s => s.parent_unit_uuid == doc.uuid
      let stages := stages.mergeSort fun a b => decide (a.number ≤ b.number)
      match getSchemaById db doc.schema_id with
      | .error _ => .error "UnitNotFoundError"
      | .ok schema =>
        match getUnitsByIds fuel db now doc.components_internal_ids with
        | .error _ => .error "UnitNotFoundError"
        | .ok components =>
          -- Unit constructor semantics (`Unit.__init__`) on the passed fields
          let status := if schema.production_stages.isEmpty
            then UnitStatus.built else UnitStatus.production
          .ok (Unit.mk {
            status := status
            schema := schema
            uuid := doc.uuid
            internal_id := doc.internal_id
            passport_short_url := doc.passport_short_url
            passport_ipfs_cid := none
            txn_hash := none
            serial_number := none
            components_units := components
            featured_in_int_id := doc.featured_in_int_id
            employee := none
            biography := if stages.isEmpty then biographyFactory schema doc.uuid
              else stages
            is_in_db := doc.is_in_db
            creation_time := now })
termination_by fuel _ _ _ => (fuel, 0)

/-- Depth-first recursive fetch of the listed components. -/
def getUnitsByIds : Nat → DB → Int → List String → Except String (List Unit)
  | _, _, _, [] => .ok []
  | fuel, db, now, iid :: iids =>
    match getUnitByInternalId fuel db iid now with
    | .error e => .error e
    | .ok u =>
      match getUnitsByIds fuel db now iids with
      | .error e => .error e
      | .ok us => .ok (u :: us)
termination_by fuel _ _ iids => (fuel, iids.length + 1)

end

/-- Structural induction over the component tree of a unit. -/
def Unit.strongInd {P : Unit → Prop}
    (step : ∀ d : UnitF Unit, (∀ c, c ∈ d.components_units → P c) → P (Unit.mk d)) :
    ∀ u, P u
  | .mk d => step d (fun c hc => Unit.strongInd step c)
termination_by u => sizeOf u
decreasing_by
  have h1 := List.sizeOf_lt_of_mem hc
  cases d
  simp [UnitF.mk.sizeOf_spec] at *
  omega

theorem length_listModify (l : List α) (n : Nat) (f : α → α) :
    (listModify l n f).length = l.length := by
  unfold listModify
  cases h : l[n]? with
  | none => rfl
  | some x => simp

theorem getD_listModify_self (l : List α) (n : Nat) (f : α → α) (d : α)
    (h : n < l.length) : (listModify l n f).getD n d = f (l.getD n d) := by
  unfold listModify
  rw [List.getElem?_eq_getElem h]
  rw [List.getD_eq_getElem _ _ h, List.getD_eq_getElem _ _ (by simpa using h)]
  rw [List.getElem_set]
  simp

theorem getD_listModify_of_ne (l : List α) (n m : Nat) (f : α → α) (d : α)
    (h : n ≠ m) : (listModify l n f).getD m d = l.getD m d := by
  unfold listModify
  cases hx : l[n]? with
  | none => rfl
  | some x =>
    simp [List.getD_eq_getElem?_getD, List.getElem?_set_ne h]

theorem pyInsert_eq_insertIdx (l : List α) (pos : Nat) (x : α) (h : pos ≤ l.length) :
    pyInsert l pos x = l.insertIdx pos x := by
  unfold pyInsert
  rcases Nat.lt_or_ge pos l.length with hlt | hge
  · simp [Nat.not_le.mpr hlt]
  · have : pos = l.length := Nat.le_antisymm h hge
    subst this
    simp [List.insertIdx_length_self]

/-!  Concrete fixtures used by witnesses and counterexamples. -/

/-- A schema with no stages and no required components. -/
def schemaNoReq (sid : String) : ProductionSchema where
  schema_id := sid
  unit_name := "unit-" ++ sid
  production_stages := []
  required_components_schema_ids := none
  is_composite := false
  is_a_component := true

/-- A composite schema requiring the given component schema ids. -/
def schemaReq (sid : String) (req : List String) : ProductionSchema where
  schema_id := sid
  unit_name := "unit-" ++ sid
  production_stages := []
  required_components_schema_ids := some req
  is_composite := true
  is_a_component := false

/-- Base field record for fixture units. -/
def baseUnitF (schema : ProductionSchema) (uuid iid : String)
    (status : UnitStatus) : UnitF Unit where
  status := status
  schema := schema
  uuid := uuid
  internal_id := iid
  passport_short_url := none
  passport_ipfs_cid := none
  txn_hash := none
  serial_number := none
  components_units := []
  featured_in_int_id := none
  employee := none
  biography := []
  is_in_db := false
  creation_time := 0

/-- Fixture employee. -/
def e0 : Employee where
  rfid_card_id := "card-0"
  name := "E. Zero"
  position := "operator"
  passport_code := "pc-0"

/-!  C9: total assembly time. -/

theorem foldl_add_eq_add_sum (l : List Int) (a : Int) :
    l.foldl (· + ·) a = a + l.sum := by
  induction l generalizing a with
  | nil => simp
  | cons x xs ih => simp [List.foldl_cons, ih, List.sum_cons]; ring

/-- C9 — For every unit, `total_assembly_time` equals the sum over all
biography entries of (session end time, or the current time when no end is
recorded, minus session start time) for entries that have a start time,
entries with no start time contributing exactly zero: appending an
unstarted stage never changes the total. -/
theorem C9_total_assembly_time_spec :
    ∀ (u : Unit) (now : Int),
      (u.total_assembly_time now =
        (u.data.biography.map fun s =>
          match s.session_start_time with
          | none => 0
          | some start =>
            (match s.session_end_time with
             | some e => e
             | none => now) - start).sum) ∧
      (∀ s : ProductionStage, s.session_start_time = none →
        Unit.total_assembly_time
          (Unit.mk { u.data with biography := u.data.biography ++ [s] }) now =
          u.total_assembly_time now) := by
  have hfun : ∀ now : Int, (fun s : ProductionStage =>
      match s.session_start_time with
      | none => (0 : Int)
      | some start =>
        (match s.session_end_time with
         | some e => e
         | none => now) - start) = stageLen now := by
    intro now
    funext s
    unfold stageLen
    cases s.session_start_time with
    | none => rfl
    | some start =>
      cases s.session_end_time with
      | none => rfl
      | some e => rfl
  have hmain : ∀ (bio : List ProductionStage) (now : Int),
      (match bio with
        | [] => (0 : Int)
        | s :: rest => (rest.map (stageLen now)).foldl (· + ·) (stageLen now s)) =
        (bio.map (stageLen now)).sum := by
    intro bio now
    cases bio with
    | nil => simp
    | cons s rest => simp [foldl_add_eq_add_sum, List.sum_cons]
  intro u now
  constructor
  · rw [hfun]
    unfold Unit.total_assembly_time
    exact hmain u.data.biography now
  · intro s hs
    unfold Unit.total_assembly_time
    rw [hmain, hmain]
    simp [List.map_append, List.sum_append, stageLen, hs]

/-!  C3: `components_filled` is only a length comparison. -/

/-- Spec-side predicate, written from the spec's words: every
schema-required component id has exactly one matching attached component,
and every attached component's schema id is among the required ids. -/
def componentsFilledSpec (u : Unit) : Bool :=
  (u.components_schema_ids.all fun sid =>
    (u.data.components_units.filter fun c =>
      c.data.schema.schema_id == sid).length == 1)
  && (u.data.components_units.all fun c =>
    u.components_schema_ids.contains c.data.schema.schema_id)

/-- Component of schema `b`, not required by `c3unit`'s schema. -/
def c3comp : Unit := .mk (baseUnitF (schemaNoReq "b") "uuid-b" "2" .built)

/-- Composite requiring one component of schema `a` but holding one of
schema `b`: the lists have equal length. -/
def c3unit : Unit :=
  .mk { baseUnitF (schemaReq "s" ["a"]) "uuid-s" "1" .production with
    components_units := [c3comp] }

/-- C3 counterexample — a unit whose single attached component's schema id
is not among the required ids still satisfies `components_filled`, because
the source only compares list lengths; the spec-side predicate rejects
it. -/
theorem C3_counterexample :
    Unit.components_filled c3unit = true ∧ componentsFilledSpec c3unit = false := by
  constructor <;> rfl

/-- C3 amended — `components_filled` holds iff the schema requires no
component ids, or the number of required ids equals the number of attached
components; matching of schema ids and absence of duplicates are not
checked. -/
theorem C3_components_filled_length_only :
    ∀ u : Unit, u.components_filled = true ↔
      (u.components_schema_ids = [] ∨
        u.components_schema_ids.length = u.data.components_units.length) := by
  intro u
  unfold Unit.components_filled
  rcases hreq : u.components_schema_ids with _ | ⟨r, rs⟩
  · simp
  · rcases hcomp : u.data.components_units with _ | ⟨c, cs⟩
    · simp
    · simp

/-!  C9 witness fixtures. -/

/-- A stage started at 0 and ended at 300. -/
def c9stage : ProductionStage :=
  { ProductionStage.fresh "st" "uuid-9" 0 "t0" with
    session_start_time := some 0
    session_end_time := some 300 }

/-- An unstarted stage. -/
def c9unstarted : ProductionStage := ProductionStage.fresh "st2" "uuid-9" 1 "t1"

/-- Unit with a single timed stage. -/
def c9unit : Unit :=
  .mk { baseUnitF (schemaNoReq "s9") "uuid-9" "9" .production with
    biography := [c9stage] }

/-- C9 witness — the timed stage contributes exactly 300 and appending an
unstarted stage leaves the total unchanged. -/
theorem C9_witness :
    Unit.total_assembly_time c9unit 1000 =
      (c9unit.data.biography.map fun s =>
        match s.session_start_time with
        | none => 0
        | some start =>
          (match s.session_end_time with
           | some e => e
           | none => (1000 : Int)) - start).sum ∧
    Unit.total_assembly_time
      (Unit.mk { c9unit.data with biography := c9unit.data.biography ++ [c9unstarted] })
      1000 = Unit.total_assembly_time c9unit 1000 ∧
    Unit.total_assembly_time c9unit 1000 = 300 := by
  refine ⟨(C9_total_assembly_time_spec c9unit 1000).1,
    (C9_total_assembly_time_spec c9unit 1000).2 c9unstarted rfl, rfl⟩

/-!  C1: illegal transitions fail with `StateForbidden`; whether the
workbench is unchanged depends on when the operation validates. -/

/-- Unfilled composite fixture: production status, one required component
schema id, no components attached. -/
def c1unfilled : Unit := .mk (baseUnitF (schemaReq "c1s" ["c1c"]) "uuid-c1" "10" .production)

/-- Workbench fixture: gathering components, no unit. -/
def wbGather : Workbench := ⟨some e0, none, .GATHER_COMPONENTS⟩

/-- C1 counterexample — the pair (GATHER_COMPONENTS, GATHER_COMPONENTS) is
absent from the transition table, yet `assign_unit` invoked from
`GATHER_COMPONENTS` with an unfilled composite passes its entry check for
`UNIT_ASSIGNED_IDLING`, sets the unit reference, and only then fails the
switch to `GATHER_COMPONENTS`: the `StateForbidden` error carries a
workbench whose unit reference has already been replaced, so a partial
mutation did occur before the failing check. -/
theorem C1_counterexample :
    State.GATHER_COMPONENTS ∉ STATE_TRANSITION_MAP State.GATHER_COMPONENTS ∧
    State.UNIT_ASSIGNED_IDLING ∈ STATE_TRANSITION_MAP State.GATHER_COMPONENTS ∧
    c1unfilled.components_filled = false ∧
    assignUnit wbGather c1unfilled =
      .error (.stateForbidden, { wbGather with unit := some c1unfilled }) ∧
    wbGather.unit = none := by
  refine ⟨by decide, by decide, rfl, rfl, rfl⟩

/-- C1 (amended) — whenever the target state first validated by a mutating
operation is not listed for the current state in the transition map, the
operation fails with `StateForbidden` and returns the workbench exactly as
it was; but `assign_unit` performs a second, late transition to
`GATHER_COMPONENTS` after setting the unit reference, so when that second
target is the one absent from the table the operation still fails with
`StateForbidden` while the unit reference has already been replaced by the
assignment target. -/
theorem C1_state_forbidden_amended :
    ∀ (wb : Workbench) (e : Employee) (u t : Unit) (info : Option AdditionalInfo)
      (premature : Bool) (hashes : List String) (now : Int),
      (State.AUTHORIZED_IDLING ∉ STATE_TRANSITION_MAP wb.state →
        logIn wb e = .error (.stateForbidden, wb) ∧
        removeUnit wb = .error (.stateForbidden, wb)) ∧
      (State.AWAIT_LOGIN ∉ STATE_TRANSITION_MAP wb.state →
        logOut wb = .error (.stateForbidden, wb)) ∧
      (State.UNIT_ASSIGNED_IDLING ∉ STATE_TRANSITION_MAP wb.state →
        assignUnit wb u = .error (.stateForbidden, wb) ∧
        endOperation wb info premature hashes now = .error (.stateForbidden, wb)) ∧
      (State.PRODUCTION_STAGE_ONGOING ∉ STATE_TRANSITION_MAP wb.state →
        startOperation wb info now = .error (.stateForbidden, wb)) ∧
      (State.UNIT_ASSIGNED_IDLING ∈ STATE_TRANSITION_MAP wb.state →
        State.GATHER_COMPONENTS ∉ STATE_TRANSITION_MAP wb.state →
        determineAssignmentTarget u allowedStatuses = (t, true) →
        t.components_filled = false →
        assignUnit wb u = .error (.stateForbidden, { wb with unit := some t })) := by
  intro wb e u t info premature hashes now
  have hv : ∀ s : State, s ∉ STATE_TRANSITION_MAP wb.state →
      validTransition wb s = false := by
    intro s hs
    unfold validTransition
    simpa using hs
  refine ⟨fun h => ?_, fun h => ?_, fun h => ?_, fun h => ?_,
    fun h1 h2 h3 h4 => ?_⟩
  · constructor
    · unfold logIn
      rw [hv _ h]
      simp
    · unfold removeUnit
      rw [hv _ h]
      simp
  · unfold logOut
    rw [hv _ h]
    simp
  · constructor
    · unfold assignUnit
      rw [hv _ h]
      simp
    · unfold endOperation
      rw [hv _ h]
      simp
  · unfold startOperation
    rw [hv _ h]
    simp
  · have hvt : validTransition wb .UNIT_ASSIGNED_IDLING = true := by
      unfold validTransition
      simpa using h1
    have hv2 : validTransition { wb with unit := some t } .GATHER_COMPONENTS
        = false := hv _ h2
    unfold assignUnit switchState
    rw [hvt, h3]
    simp [h4, hv2]

/-- Workbench fixture: awaiting login. -/
def wbAwait : Workbench := ⟨none, none, .AWAIT_LOGIN⟩

/-- Workbench fixture: production stage ongoing. -/
def wbOngoing : Workbench :=
  ⟨some e0, some c9unit, .PRODUCTION_STAGE_ONGOING⟩

/-- C1 witness — from `PRODUCTION_STAGE_ONGOING` the target
`AUTHORIZED_IDLING` is illegal so `log_in` and `remove_unit` fail
unchanged; from `AWAIT_LOGIN` the targets `AWAIT_LOGIN`,
`UNIT_ASSIGNED_IDLING` and `PRODUCTION_STAGE_ONGOING` are illegal so the
four remaining operations fail unchanged; from `GATHER_COMPONENTS`,
`assign_unit` on an unfilled composite fails the late
`GATHER_COMPONENTS` check with the unit reference already replaced. -/
theorem C1_witness :
    (logIn wbOngoing e0 = .error (.stateForbidden, wbOngoing) ∧
      removeUnit wbOngoing = .error (.stateForbidden, wbOngoing)) ∧
    logOut wbAwait = .error (.stateForbidden, wbAwait) ∧
    (assignUnit wbAwait c9unit = .error (.stateForbidden, wbAwait) ∧
      endOperation wbAwait none false [] 0 = .error (.stateForbidden, wbAwait)) ∧
    startOperation wbAwait none 0 = .error (.stateForbidden, wbAwait) ∧
    assignUnit wbGather c1unfilled =
      .error (.stateForbidden, { wbGather with unit := some c1unfilled }) := by
  have h5 := (C1_state_forbidden_amended wbGather e0 c1unfilled c1unfilled none false
    [] 0).2.2.2.2
  refine ⟨(C1_state_forbidden_amended wbOngoing e0 c9unit c9unit none false [] 0).1
      (by decide),
    (C1_state_forbidden_amended wbAwait e0 c9unit c9unit none false [] 0).2.1
      (by decide),
    (C1_state_forbidden_amended wbAwait e0 c9unit c9unit none false [] 0).2.2.1
      (by decide),
    (C1_state_forbidden_amended wbAwait e0 c9unit c9unit none false [] 0).2.2.2.1
      (by decide),
    h5 (by decide) (by decide) rfl rfl⟩

/-!  C7: log_out. -/

/-- Workbench fixture: unit assigned and idling. -/
def wbAssigned : Workbench := ⟨some e0, some c9unit, .UNIT_ASSIGNED_IDLING⟩

/-- C7 counterexample — with a unit present in state
`UNIT_ASSIGNED_IDLING`, `log_out` does not cascade through `remove_unit`
and does not reach `AWAIT_LOGIN`: the transition
`UNIT_ASSIGNED_IDLING → AWAIT_LOGIN` is absent from the transition table,
so the very first check fails with `StateForbidden` and nothing changes. -/
theorem C7_counterexample :
    logOut wbAssigned = .error (.stateForbidden, wbAssigned) := rfl

/-- C7 amended — `log_out` first requires the transition to `AWAIT_LOGIN`
to be legal, which excludes `UNIT_ASSIGNED_IDLING`; there it fails with
`StateForbidden` leaving employee, unit and state untouched (the
`remove_unit` cascade in its body is unreachable).  From `AWAIT_LOGIN`
with no unit, `log_in(e)` followed by `log_out()` returns to `AWAIT_LOGIN`
with no employee and no unit, for every employee `e`. -/
theorem C7_logout_amended :
    ∀ (wb : Workbench) (e : Employee),
      (wb.state = .UNIT_ASSIGNED_IDLING →
        logOut wb = .error (.stateForbidden, wb)) ∧
      (wb.state = .AWAIT_LOGIN → wb.unit = none →
        Except.bind (logIn wb e) logOut =
          .ok (⟨none, none, .AWAIT_LOGIN⟩ : Workbench)) := by
  intro wb e
  obtain ⟨emp, un, st⟩ := wb
  constructor
  · intro h
    simp only at h
    subst h
    rfl
  · intro h hu
    simp only at h hu
    subst h
    subst hu
    rfl

/-- C7 witness — the amended claim at the fixtures: `log_out` in
`UNIT_ASSIGNED_IDLING` fails unchanged, and a login/logout round trip from
`AWAIT_LOGIN` ends awaiting login with no employee and no unit. -/
theorem C7_witness :
    logOut wbAssigned = .error (.stateForbidden, wbAssigned) ∧
    Except.bind (logIn wbAwait e0) logOut =
      .ok (⟨none, none, .AWAIT_LOGIN⟩ : Workbench) := by
  exact ⟨(C7_logout_amended wbAssigned e0).1 rfl,
    (C7_logout_amended wbAwait e0).2 rfl rfl⟩

/-!  C4: assign_component. -/

/-- A unit whose component requirements are vacuously satisfied. -/
def c4filled : Unit := .mk (baseUnitF (schemaNoReq "f4") "uuid-f4" "40" .production)

/-- A candidate component. -/
def c4comp : Unit := .mk (baseUnitF (schemaNoReq "a") "uuid-a4" "41" .built)

/-- C4 counterexample — on a unit whose component requirements are already
satisfied, `assign_component` does not raise: the source only logs an
error and returns with both units untouched. -/
theorem C4_counterexample :
    Unit.components_filled c4filled = true ∧
    Unit.assign_component c4filled c4comp = .ok (c4filled, c4comp) := by
  constructor <;> rfl

/-- C4 amended — when the unit's component requirements are already
satisfied, `assign_component` merely logs and returns with
`components_units` unchanged (no error is raised); each of the four
remaining enumerated sub-reasons raises a `ValueError` with its own
distinct message, leaving the component list unchanged. -/
theorem C4_assign_component_amended :
    ∀ (self comp : Unit) (fid : String),
      (self.components_filled = true →
        self.assign_component comp = .ok (self, comp)) ∧
      (self.components_filled = false →
        comp.data.schema.schema_id ∉ self.components_schema_ids →
        self.assign_component comp = .error ("Cannot assign component "
          ++ comp.model_name ++ " to " ++ self.model_name
          ++ " as it is not a component of it")) ∧
      (self.components_filled = false →
        comp.data.schema.schema_id ∈ self.components_schema_ids →
        comp.data.schema.schema_id ∈ (self.data.components_units.map fun c =>
          c.data.schema.schema_id) →
        self.assign_component comp = .error ("Component " ++ comp.model_name
          ++ " is already assigned to a composite Unit " ++ self.model_name)) ∧
      (self.components_filled = false →
        comp.data.schema.schema_id ∈ self.components_schema_ids →
        comp.data.schema.schema_id ∉ (self.data.components_units.map fun c =>
          c.data.schema.schema_id) →
        comp.data.status ≠ .built →
        self.assign_component comp = .error ("Component " ++ comp.model_name
          ++ " assembly is not completed.")) ∧
      (self.components_filled = false →
        comp.data.schema.schema_id ∈ self.components_schema_ids →
        comp.data.schema.schema_id ∉ (self.data.components_units.map fun c =>
          c.data.schema.schema_id) →
        comp.data.status = .built →
        comp.data.featured_in_int_id = some fid →
        self.assign_component comp = .error ("Component " ++ comp.model_name
          ++ " has already been used in unit " ++ fid)) := by
  intro self comp fid
  refine ⟨fun h1 => ?_, fun h1 h2 => ?_, fun h1 h2 h3 => ?_,
    fun h1 h2 h3 h4 => ?_, fun h1 h2 h3 h4 h5 => ?_⟩
  · unfold Unit.assign_component
    rw [if_pos h1]
  · unfold Unit.assign_component
    rw [if_neg (by simp [h1]), if_neg (by simp [h2])]
  · unfold Unit.assign_component
    rw [if_neg (by simp [h1]), if_pos (by simpa using h2),
      if_neg (by simp [h3])]
  · unfold Unit.assign_component
    rw [if_neg (by simp [h1]), if_pos (by simpa using h2),
      if_pos (by simp [h3]), if_pos h4]
  · unfold Unit.assign_component
    rw [if_neg (by simp [h1]), if_pos (by simpa using h2),
      if_pos (by simp [h3]), if_neg (by simp [h4]), if_pos (by simp [h5])]
    simp [h5]

/-- Composite unit requiring one `a`-schema component, none attached
yet. -/
def c4open : Unit := .mk (baseUnitF (schemaReq "s4" ["a"]) "uuid-s4" "42" .production)

/-- Composite unit requiring `a` and `b`, already holding an `a`. -/
def c4partial : Unit :=
  .mk { baseUnitF (schemaReq "s4b" ["a", "b"]) "uuid-s4b" "43" .production with
    components_units := [c4comp] }

/-- Component whose schema `x` is required nowhere. -/
def c4alien : Unit := .mk (baseUnitF (schemaNoReq "x") "uuid-x4" "44" .built)

/-- An `a`-schema component that is not yet built. -/
def c4unbuilt : Unit := .mk (baseUnitF (schemaNoReq "a") "uuid-u4" "45" .production)

/-- An `a`-schema component already consumed by another parent. -/
def c4used : Unit :=
  .mk { baseUnitF (schemaNoReq "a") "uuid-w4" "46" .built with
    featured_in_int_id := some "77" }

/-- C4 witness — all five branches of the amended claim at concrete
inputs: satisfied requirements return untouched, the four violations yield
their four distinct errors. -/
theorem C4_witness :
    Unit.assign_component c4filled c4comp = .ok (c4filled, c4comp) ∧
    Unit.assign_component c4open c4alien = .error ("Cannot assign component "
      ++ c4alien.model_name ++ " to " ++ c4open.model_name
      ++ " as it is not a component of it") ∧
    Unit.assign_component c4partial c4comp = .error ("Component "
      ++ c4comp.model_name ++ " is already assigned to a composite Unit "
      ++ c4partial.model_name) ∧
    Unit.assign_component c4open c4unbuilt = .error ("Component "
      ++ c4unbuilt.model_name ++ " assembly is not completed.") ∧
    Unit.assign_component c4open c4used = .error ("Component "
      ++ c4used.model_name ++ " has already been used in unit " ++ "77") := by
  refine ⟨(C4_assign_component_amended c4filled c4comp "").1 rfl,
    (C4_assign_component_amended c4open c4alien "").2.1 rfl (by decide),
    (C4_assign_component_amended c4partial c4comp "").2.2.1 rfl (by decide)
      (by decide),
    (C4_assign_component_amended c4open c4unbuilt "").2.2.2.1 rfl (by decide)
      (by decide) (by decide),
    (C4_assign_component_amended c4open c4used "77").2.2.2.2 rfl (by decide)
      (by decide) rfl rfl⟩

/-!  C2: assign_unit target resolution. -/

/-- Production-status component inside the fixture composite. -/
def c2comp : Unit := .mk (baseUnitF (schemaNoReq "c2c") "uuid-c2c" "21" .production)

/-- Built unit with a published passport (override fails) holding a
production-status component. -/
def c2unit : Unit :=
  .mk { baseUnitF (schemaNoReq "c2u") "uuid-c2u" "20" .built with
    passport_ipfs_cid := some "cid"
    components_units := [c2comp] }

/-- Built unit with a published passport and no components. -/
def c2dead : Unit :=
  .mk { baseUnitF (schemaNoReq "c2d") "uuid-c2d" "22" .built with
    passport_ipfs_cid := some "cid" }

/-- Workbench fixture: employee authorized, no unit. -/
def wbAuth : Workbench := ⟨some e0, none, .AUTHORIZED_IDLING⟩

/-- C2 counterexample — a unit with status `built` and a non-empty
`passport_ipfs_cid` (override fails) does not make `assign_unit` fail:
because its component tree holds a production-status component, that
component is assigned to the workbench instead of the unit passed in. -/
theorem C2_counterexample :
    assignUnit wbAuth c2unit =
      .ok (⟨some e0, some c2comp, .UNIT_ASSIGNED_IDLING⟩ : Workbench) ∧
    c2comp.data.uuid ≠ c2unit.data.uuid := by
  constructor
  · rfl
  · decide

/-- C2 amended — for a unit whose status is neither `production` nor
`revision` and for which the built-but-unpublished override fails,
`assign_unit` searches the unit's component tree for a unit with an
allowed status: it fails (with the workbench unchanged) only when the
tree has none, and otherwise assigns the first such component in
depth-first order instead of the unit passed in. -/
theorem C2_assign_unit_amended :
    ∀ (wb : Workbench) (u : Unit) (c : Unit),
      (u.data.status ∉ allowedStatuses →
        ¬(u.data.status = .built ∧ u.data.passport_ipfs_cid = none) →
        validTransition wb .UNIT_ASSIGNED_IDLING = true →
        (getUnitList u).find?
          (fun x => allowedStatuses.contains x.data.status) = none →
        assignUnit wb u = .error (.assertionError, wb)) ∧
      (u.data.status ∉ allowedStatuses →
        ¬(u.data.status = .built ∧ u.data.passport_ipfs_cid = none) →
        wb.state = .AUTHORIZED_IDLING →
        (getUnitList u).find?
          (fun x => allowedStatuses.contains x.data.status) = some c →
        assignUnit wb u = (if c.components_filled then
          .ok { wb with unit := some c, state := .UNIT_ASSIGNED_IDLING }
        else
          .ok { wb with unit := some c, state := .GATHER_COMPONENTS })) := by
  intro wb u c
  have hcond : ∀ u : Unit, u.data.status ∉ allowedStatuses →
      ¬(u.data.status = .built ∧ u.data.passport_ipfs_cid = none) →
      ¬((allowedStatuses.contains u.data.status
        || (u.data.status == UnitStatus.built
          && u.data.passport_ipfs_cid.isNone)) = true) := by
    intro u h1 h2 hcontra
    rcases Bool.or_eq_true_iff.mp hcontra with h | h
    · exact h1 (by simpa using h)
    · rcases Bool.and_eq_true_iff.mp h with ⟨ha, hb⟩
      exact h2 ⟨by simpa using ha, by simpa [Option.isNone_iff_eq_none] using hb⟩
  constructor
  · intro h1 h2 hv hfind
    unfold assignUnit
    rw [if_pos hv]
    unfold determineAssignmentTarget
    rw [if_neg (hcond u h1 h2), hfind]
  · intro h1 h2 hst hfind
    have hv : validTransition wb .UNIT_ASSIGNED_IDLING = true := by
      unfold validTransition
      rw [hst]
      rfl
    unfold assignUnit
    rw [if_pos hv]
    unfold determineAssignmentTarget
    rw [if_neg (hcond u h1 h2), hfind]
    cases hcf : c.components_filled with
    | true =>
      simp only [hcf, Bool.not_true, Bool.false_eq_true, if_false, if_true]
      unfold switchState
      rw [if_pos (by unfold validTransition; rw [hst]; rfl)]
    | false =>
      simp only [hcf, Bool.not_false, Bool.false_eq_true, if_false, if_true]
      unfold switchState
      rw [if_pos (by unfold validTransition; rw [hst]; rfl)]

/-- C2 witness — the amended claim at the fixtures: with no assignable
unit anywhere in the tree the call fails leaving the workbench unchanged;
with a production-status component inside, that component gets
assigned. -/
theorem C2_witness :
    assignUnit wbAuth c2dead = .error (.assertionError, wbAuth) ∧
    assignUnit wbAuth c2unit =
      .ok (⟨some e0, some c2comp, .UNIT_ASSIGNED_IDLING⟩ : Workbench) := by
  constructor
  · exact (C2_assign_unit_amended wbAuth c2dead c2dead).1 (by decide)
      (by decide) rfl rfl
  · have h := (C2_assign_unit_amended wbAuth c2unit c2comp).2 (by decide)
      (by decide) rfl rfl
    simpa using h

/-!  Persistence lemmas: the `is_in_db` guard. -/

mutual

/-- All unit-level `is_in_db` flags in the component tree are set. -/
def allInDb : Unit → Bool
  | .mk d => d.is_in_db && allInDbList d.components_units

/-- `allInDb` over a component list. -/
def allInDbList : List Unit → Bool
  | [] => true
  | c :: cs => allInDb c && allInDbList cs

end

theorem allInDbList_iff (cs : List Unit) :
    allInDbList cs = true ↔ ∀ c ∈ cs, allInDb c = true := by
  induction cs with
  | nil => simp [allInDbList]
  | cons c cs ih =>
    unfold allInDbList
    rw [Bool.and_eq_true, ih]
    constructor
    · rintro ⟨h1, h2⟩ x hx
      rcases List.mem_cons.mp hx with rfl | hx
      · exact h1
      · exact h2 _ hx
    · intro h
      exact ⟨h c (by simp), fun x hx => h x (by simp [hx])⟩

theorem uploadComponents_inDb (cs : List Unit)
    (hIH : ∀ c ∈ cs, ∀ db : DB, allInDb c = true → uploadUnit c db = (c, db))
    (h : allInDbList cs = true) : ∀ db : DB, uploadComponents cs db = (cs, db) := by
  induction cs with
  | nil =>
    intro db
    rfl
  | cons c cs ih =>
    intro db
    unfold allInDbList at h
    rw [Bool.and_eq_true] at h
    unfold uploadComponents
    rw [hIH c (by simp) db h.1]
    dsimp only
    rw [ih (fun x hx db2 hdb => hIH x (by simp [hx]) db2 hdb) h.2 db]

/-- A fully stored tree uploads as a no-op: no flag changes, no writes. -/
theorem uploadUnit_inDb :
    ∀ u : Unit, ∀ db : DB, allInDb u = true → uploadUnit u db = (u, db) := by
  intro u
  induction u using Unit.strongInd with
  | step d ih =>
    intro db h
    unfold allInDb at h
    rw [Bool.and_eq_true] at h
    unfold uploadUnit
    rw [uploadComponents_inDb d.components_units
      (fun c hc db2 hdb => ih c hc db2 hdb) h.2 db]
    dsimp only
    simp only [Unit.data_mk]
    rw [if_pos h.1]

theorem uploadComponents_allInDb (cs : List Unit)
    (hIH : ∀ c ∈ cs, ∀ db : DB, allInDb (uploadUnit c db).1 = true) :
    ∀ db : DB, allInDbList (uploadComponents cs db).1 = true := by
  induction cs with
  | nil =>
    intro db
    rfl
  | cons c cs ih =>
    intro db
    unfold uploadComponents
    have h1 := hIH c (by simp) db
    have h2 := ih (fun x hx db2 => hIH x (by simp [hx]) db2)
      (uploadUnit c db).2
    unfold allInDbList
    rw [Bool.and_eq_true]
    exact ⟨h1, h2⟩

/-- After an upload, every unit flag in the returned tree is set. -/
theorem uploadUnit_allInDb :
    ∀ u : Unit, ∀ db : DB, allInDb (uploadUnit u db).1 = true := by
  intro u
  induction u using Unit.strongInd with
  | step d ih =>
    intro db
    unfold uploadUnit
    have hcs := uploadComponents_allInDb d.components_units
      (fun c hc db2 => ih c hc db2) db
    dsimp only
    simp only [Unit.data_mk]
    cases hflag : d.is_in_db with
    | true =>
      rw [if_pos rfl]
      unfold allInDb
      rw [Bool.and_eq_true]
      exact ⟨rfl, hcs⟩
    | false =>
      rw [if_neg (by simp)]
      unfold allInDb
      rw [Bool.and_eq_true]
      exact ⟨rfl, hcs⟩

theorem uploadComponents_allInDb' :
    ∀ (cs : List Unit) (db : DB), allInDbList (uploadComponents cs db).1 = true :=
  fun cs db =>
    uploadComponents_allInDb cs (fun c _ db2 => uploadUnit_allInDb c db2) db

/-!  C10: the `is_in_db` flag is set strictly before the insert. -/

/-- C10 — `upload_production_stage` and `upload_unit` set `is_in_db` to
true strictly before issuing the insert: when the insert itself raises,
the error carries the document owner with the flag already true and the
store unchanged by that insert, and any subsequent upload call performs no
insert for that document. -/
theorem C10_flag_set_before_insert :
    ∀ (s : ProductionStage) (db db2 db3 db4 dbe : DB) (u u' : Unit),
      (s.is_in_db = false →
        uploadProductionStageF s db true = .error ({ s with is_in_db := true }, db) ∧
        uploadProductionStage { s with is_in_db := true } db2 =
          ({ s with is_in_db := true }, db2)) ∧
      (u.data.is_in_db = false →
        uploadUnitF u db3 true = .error (u', dbe) →
        u'.data.is_in_db = true ∧ uploadUnit u' db4 = (u', db4)) := by
  intro s db db2 db3 db4 dbe u u'
  constructor
  · intro h
    constructor
    · unfold uploadProductionStageF
      rw [if_neg (by simp [h])]
      rfl
    · unfold uploadProductionStage
      rw [if_pos rfl]
  · intro h herr
    cases u with
    | mk d =>
      simp only [Unit.data_mk] at h
      have hval : uploadUnitF (Unit.mk d) db3 true =
          .error (Unit.mk { d with
              components_units := (uploadComponents d.components_units db3).1,
              biography := (uploadStages d.biography
                (uploadComponents d.components_units db3).2).1,
              is_in_db := true },
            (uploadStages d.biography
              (uploadComponents d.components_units db3).2).2) := by
        unfold uploadUnitF
        dsimp only
        simp only [Unit.data_mk]
        rw [if_neg (by simp [h])]
        rfl
      rw [hval] at herr
      rw [Except.error.injEq, Prod.mk.injEq] at herr
      obtain ⟨h1, h2⟩ := herr
      subst h1
      refine ⟨rfl, uploadUnit_inDb _ db4 ?_⟩
      unfold allInDb
      rw [Bool.and_eq_true]
      exact ⟨rfl, uploadComponents_allInDb' d.components_units db3⟩

/-- Fresh stage fixture for the C10 witness. -/
def c10stage : ProductionStage := ProductionStage.fresh "s10" "uuid-10" 0 "t10"

/-- Fresh unit fixture with one stage for the C10 witness. -/
def c10unit : Unit :=
  .mk { baseUnitF (schemaNoReq "s10") "uuid-10" "100" .production with
    biography := [c10stage] }

/-- Empty store fixture. -/
def dbEmpty : DB := ⟨[], [], []⟩

/-- The fixture stage with its flag set. -/
def c10staged : ProductionStage := { c10stage with is_in_db := true }

/-- The fixture unit as carried by the raised insert error. -/
def c10unitMarked : Unit :=
  .mk { c10unit.data with biography := [c10staged], is_in_db := true }

/-- The store as carried by the raised insert error: the stage row was
already written, the unit row was not. -/
def c10dbAfter : DB := ⟨[], [c10staged], []⟩

/-- C10 witness — a failing insert of a fresh stage and a fresh unit
leaves the flag set, and re-uploading afterwards writes nothing. -/
theorem C10_witness :
    (uploadProductionStageF c10stage dbEmpty true =
      .error ({ c10stage with is_in_db := true }, dbEmpty) ∧
      uploadProductionStage { c10stage with is_in_db := true } dbEmpty =
        ({ c10stage with is_in_db := true }, dbEmpty)) ∧
    (c10unitMarked.data.is_in_db = true ∧
      uploadUnit c10unitMarked dbEmpty = (c10unitMarked, dbEmpty)) := by
  constructor
  · exact (C10_flag_set_before_insert c10stage dbEmpty dbEmpty dbEmpty dbEmpty
      dbEmpty c10unit c10unit).1 rfl
  · exact (C10_flag_set_before_insert c10stage dbEmpty dbEmpty dbEmpty dbEmpty
      c10dbAfter c10unit c10unitMarked).2 rfl rfl

/-!  Closed form of a first-time upload. -/

mutual

/-- The tree as mutated by a successful first upload: every unit and stage
flag set. -/
def markTree : Unit → Unit
  | .mk d => .mk { d with
      components_units := markTreeList d.components_units,
      biography := d.biography.map fun s => { s with is_in_db := true },
      is_in_db := true }

/-- `markTree` over a component list. -/
def markTreeList : List Unit → List Unit
  | [] => []
  | c :: cs => markTree c :: markTreeList cs

end

mutual

/-- The unit documents inserted by a first upload, in insertion order:
depth-first components first, the unit's own document last. -/
def docsOf : Unit → List UnitDoc
  | .mk d => docsOfList d.components_units ++
      [(Unit.mk { d with
          components_units := markTreeList d.components_units,
          is_in_db := true }).dict_data]

/-- `docsOf` over a component list. -/
def docsOfList : List Unit → List UnitDoc
  | [] => []
  | c :: cs => docsOf c ++ docsOfList cs

end

mutual

/-- The stage documents inserted by a first upload, in insertion order. -/
def stagesOf : Unit → List ProductionStage
  | .mk d => stagesOfList d.components_units ++
      d.biography.map fun s => { s with is_in_db := true }

/-- `stagesOf` over a component list. -/
def stagesOfList : List Unit → List ProductionStage
  | [] => []
  | c :: cs => stagesOf c ++ stagesOfList cs

end

mutual

/-- No unit or stage flag set anywhere in the tree: a never-stored unit. -/
def allFresh : Unit → Bool
  | .mk d => !d.is_in_db && d.biography.all (fun s => !s.is_in_db)
      && allFreshList d.components_units

/-- `allFresh` over a component list. -/
def allFreshList : List Unit → Bool
  | [] => true
  | c :: cs => allFresh c && allFreshList cs

end

theorem uploadStages_fresh (bio : List ProductionStage)
    (h : ∀ s ∈ bio, s.is_in_db = false) : ∀ db : DB,
    uploadStages bio db =
      (bio.map fun s => { s with is_in_db := true },
       { db with stageDocs := db.stageDocs ++
          bio.map fun s => { s with is_in_db := true } }) := by
  induction bio with
  | nil =>
    intro db
    simp [uploadStages]
  | cons s rest ih =>
    intro db
    unfold uploadStages uploadProductionStage
    rw [if_neg (by simp [h s (by simp)])]
    dsimp only
    rw [ih (fun x hx => h x (by simp [hx]))]
    simp

theorem uploadComponents_fresh (cs : List Unit)
    (hIH : ∀ c ∈ cs, allFresh c = true → ∀ db : DB,
      uploadUnit c db = (markTree c,
        ⟨db.unitDocs ++ docsOf c, db.stageDocs ++ stagesOf c, db.schemaDocs⟩))
    (h : allFreshList cs = true) : ∀ db : DB,
    uploadComponents cs db = (markTreeList cs,
      ⟨db.unitDocs ++ docsOfList cs, db.stageDocs ++ stagesOfList cs,
        db.schemaDocs⟩) := by
  induction cs with
  | nil =>
    intro db
    simp [uploadComponents, markTreeList, docsOfList, stagesOfList]
  | cons c cs ih =>
    intro db
    unfold allFreshList at h
    rw [Bool.and_eq_true] at h
    unfold uploadComponents
    rw [hIH c (by simp) h.1 db]
    dsimp only
    rw [ih (fun x hx hf db2 => hIH x (by simp [hx]) hf db2) h.2]
    have hm : markTreeList (c :: cs) = markTree c :: markTreeList cs := rfl
    have hd : docsOfList (c :: cs) = docsOf c ++ docsOfList cs := rfl
    have hs : stagesOfList (c :: cs) = stagesOf c ++ stagesOfList cs := rfl
    rw [hm, hd, hs]
    simp

/-- Closed form of a first upload on a fully fresh tree: the returned unit
is the marked tree, the store gains exactly the tree's unit documents and
stage documents, appended in insertion order. -/
theorem uploadUnit_fresh :
    ∀ u : Unit, allFresh u = true → ∀ db : DB,
      uploadUnit u db = (markTree u,
        ⟨db.unitDocs ++ docsOf u, db.stageDocs ++ stagesOf u, db.schemaDocs⟩) := by
  intro u
  induction u using Unit.strongInd with
  | step d ih =>
    intro h db
    unfold allFresh at h
    rw [Bool.and_eq_true, Bool.and_eq_true] at h
    obtain ⟨⟨hflag, hbio⟩, hcs⟩ := h
    unfold uploadUnit
    rw [uploadComponents_fresh d.components_units
      (fun c hc hf db2 => ih c hc hf db2) hcs db]
    dsimp only
    simp only [Unit.data_mk]
    rw [if_neg (by simp_all), uploadStages_fresh d.biography
      (by intro s hs; have := List.all_eq_true.mp hbio s hs; simpa using this)]
    unfold markTree docsOf stagesOf
    simp

theorem docsOfList_length (cs : List Unit)
    (hIH : ∀ c ∈ cs, (docsOf c).length = (getUnitList c).length) :
    (docsOfList cs).length = (getUnitListMany cs).length := by
  induction cs with
  | nil => rfl
  | cons c cs ih =>
    unfold docsOfList getUnitListMany
    simp only [List.length_append]
    rw [hIH c (by simp), ih (fun x hx => hIH x (by simp [hx]))]

/-- One unit document per unit of the tree. -/
theorem docsOf_length :
    ∀ u : Unit, (docsOf u).length = (getUnitList u).length := by
  intro u
  induction u using Unit.strongInd with
  | step d ih =>
    unfold docsOf getUnitList
    rw [List.length_append,
      docsOfList_length d.components_units (fun c hc => ih c hc)]
    simp

theorem stagesOfList_length (cs : List Unit)
    (hIH : ∀ c ∈ cs, (stagesOf c).length =
      ((getUnitList c).map fun x => x.data.biography.length).sum) :
    (stagesOfList cs).length =
      ((getUnitListMany cs).map fun x => x.data.biography.length).sum := by
  induction cs with
  | nil => rfl
  | cons c cs ih =>
    unfold stagesOfList getUnitListMany
    simp only [List.length_append, List.map_append, List.sum_append]
    rw [hIH c (by simp), ih (fun x hx => hIH x (by simp [hx]))]

/-- One stage document per biography entry of the tree. -/
theorem stagesOf_length :
    ∀ u : Unit, (stagesOf u).length =
      ((getUnitList u).map fun x => x.data.biography.length).sum := by
  intro u
  induction u using Unit.strongInd with
  | step d ih =>
    unfold stagesOf getUnitList
    simp only [List.length_append, List.map_cons, List.sum_cons,
      List.length_map, Unit.data_mk]
    rw [stagesOfList_length d.components_units (fun c hc => ih c hc)]
    omega

/-!  C6: upload idempotence. -/

/-- C6 — `upload_unit` is idempotent: re-invoking it on the returned
(unchanged) unit and store is the identity, so two calls leave exactly the
documents of one; a unit already flagged `is_in_db` gets no unit document
beyond the component pass; a stage already flagged is never re-inserted;
and a first upload of a fully fresh tree inserts exactly one unit document
per unit of the tree and exactly one stage document per biography
entry. -/
theorem C6_upload_unit_idempotent :
    ∀ (u : Unit) (db : DB),
      (uploadUnit (uploadUnit u db).1 (uploadUnit u db).2 = uploadUnit u db) ∧
      (u.data.is_in_db = true →
        (uploadUnit u db).2.unitDocs =
          (uploadComponents u.data.components_units db).2.unitDocs) ∧
      (∀ (s : ProductionStage) (db2 : DB), s.is_in_db = true →
        uploadProductionStage s db2 = (s, db2)) ∧
      (allFresh u = true →
        (uploadUnit u db).2.unitDocs.length =
          db.unitDocs.length + (getUnitList u).length ∧
        (uploadUnit u db).2.stageDocs.length =
          db.stageDocs.length +
            ((getUnitList u).map fun x => x.data.biography.length).sum) := by
  intro u db
  refine ⟨?_, ?_, ?_, ?_⟩
  · rw [uploadUnit_inDb (uploadUnit u db).1 (uploadUnit u db).2
      (uploadUnit_allInDb u db)]
  · intro h
    cases u with
    | mk d =>
      simp only [Unit.data_mk] at h ⊢
      unfold uploadUnit
      dsimp only
      simp only [Unit.data_mk]
      rw [if_pos h]
  · intro s db2 h
    unfold uploadProductionStage
    rw [if_pos h]
  · intro h
    rw [uploadUnit_fresh u h db]
    dsimp only
    constructor
    · rw [List.length_append, docsOf_length]
    · rw [List.length_append, stagesOf_length]

/-- Fresh stage for the C6 witness. -/
def c6stage : ProductionStage := ProductionStage.fresh "c6s" "uuid-6c" 0 "t6"

/-- Fresh component for the C6 witness. -/
def c6comp : Unit :=
  .mk { baseUnitF (schemaNoReq "c6c") "uuid-6c" "61" .built with
    biography := [c6stage] }

/-- Fresh composite tree for the C6 witness. -/
def c6unit : Unit :=
  .mk { baseUnitF (schemaReq "c6u" ["c6c"]) "uuid-6u" "60" .production with
    components_units := [c6comp] }

/-- Unit already flagged as stored. -/
def c6indb : Unit :=
  .mk { baseUnitF (schemaNoReq "c6i") "uuid-6i" "62" .built with
    is_in_db := true }

/-- Stage already flagged as stored. -/
def c6stagedone : ProductionStage :=
  { ProductionStage.fresh "c6d" "uuid-6d" 0 "t6d" with is_in_db := true }

/-- C6 witness — the amended-free claim at concrete fixtures: the second
upload of the fixture tree is the identity, an already-stored unit gains
no unit document, an already-stored stage is returned without a write, and
the fresh two-unit tree with one stage yields exactly two unit documents
and one stage document. -/
theorem C6_witness :
    (uploadUnit (uploadUnit c6unit dbEmpty).1 (uploadUnit c6unit dbEmpty).2 =
      uploadUnit c6unit dbEmpty) ∧
    ((uploadUnit c6indb dbEmpty).2.unitDocs =
      (uploadComponents c6indb.data.components_units dbEmpty).2.unitDocs) ∧
    (uploadProductionStage c6stagedone dbEmpty = (c6stagedone, dbEmpty)) ∧
    ((uploadUnit c6unit dbEmpty).2.unitDocs.length =
      dbEmpty.unitDocs.length + (getUnitList c6unit).length ∧
      (uploadUnit c6unit dbEmpty).2.stageDocs.length =
        dbEmpty.stageDocs.length +
          ((getUnitList c6unit).map fun x => x.data.biography.length).sum) := by
  refine ⟨(C6_upload_unit_idempotent c6unit dbEmpty).1,
    (C6_upload_unit_idempotent c6indb dbEmpty).2.1 rfl,
    (C6_upload_unit_idempotent c6unit dbEmpty).2.2.1 c6stagedone dbEmpty rfl,
    (C6_upload_unit_idempotent c6unit dbEmpty).2.2.2 rfl⟩

/-!  Decomposition lemmas for the biography surgery in `end_operation`. -/

theorem findIdx?_append_cons (P : List α) (a : α) (S : List α) (p : α → Bool)
    (hP : ∀ x ∈ P, p x = false) (ha : p a = true) :
    (P ++ a :: S).findIdx? p = some P.length := by
  induction P with
  | nil => simp [List.findIdx?_cons, ha]
  | cons x P ih =>
    rw [List.cons_append, List.findIdx?_cons,
      if_neg (by simp [hP x (by simp)]), List.findIdx?_succ,
      ih (fun y hy => hP y (by simp [hy]))]
    rfl

theorem set_append_cons' (P : List α) (b : α) (T : List α) (y : α) :
    (P ++ b :: T).set P.length y = P ++ y :: T := by
  induction P with
  | nil => simp
  | cons x P ih =>
    rw [List.cons_append, List.length_cons, List.set_cons_succ, ih,
      List.cons_append]

theorem listModify_append_cons (P : List α) (a : α) (S : List α) (f : α → α) :
    listModify (P ++ a :: S) P.length f = P ++ f a :: S := by
  unfold listModify
  have h : (P ++ a :: S)[P.length]? = some a := by
    rw [List.getElem?_append_right (Nat.le_refl _)]
    simp
  rw [h]
  exact set_append_cons' P a S (f a)

theorem insertIdx_append_cons (P : List α) (x : α) (T : List α) :
    List.insertIdx P.length x (P ++ T) = P ++ x :: T := by
  induction P with
  | nil => simp [List.insertIdx_zero]
  | cons y P ih =>
    rw [List.cons_append, List.length_cons, List.insertIdx_succ_cons, ih,
      List.cons_append]

theorem pyInsert_append_cons (P : List α) (b : α) (S : List α) (x : α) :
    pyInsert (P ++ b :: S) (P.length + 1) x = P ++ b :: x :: S := by
  have hlen : P.length + 1 ≤ (P ++ b :: S).length := by
    simp
  rw [pyInsert_eq_insertIdx _ _ _ hlen]
  have : P ++ b :: x :: S = (P ++ [b]) ++ x :: S := by simp
  rw [this]
  have h2 : P ++ b :: S = (P ++ [b]) ++ S := by simp
  rw [h2]
  have h3 : P.length + 1 = (P ++ [b]).length := by simp
  rw [h3, insertIdx_append_cons]

theorem getD_append_cons_self (P : List α) (b : α) (T : List α) (d : α) :
    (P ++ b :: T).getD P.length d = b := by
  rw [List.getD_append_right _ _ _ _ (Nat.le_refl _)]
  simp

theorem mapIdx_threshold (P : List α) (a b : α) (S : List α) (g : α → α) :
    List.mapIdx
      (fun k s => if k ≥ P.length + 2 then g s else s) (P ++ a :: b :: S) =
      P ++ a :: b :: S.map g := by
  have hsplit : P ++ a :: b :: S = (P ++ [a, b]) ++ S := by simp
  rw [hsplit, List.mapIdx_append]
  have h1 : List.mapIdx (fun k s => if k ≥ P.length + 2 then g s else s)
      (P ++ [a, b]) = P ++ [a, b] := by
    apply List.ext_getElem
    · simp
    · intro n h1 h2
      rw [List.getElem_mapIdx]
      have : n < P.length + 2 := by
        simpa using h2
      rw [if_neg (by omega)]
  have h2 : List.mapIdx
      (fun k s => if k + (P ++ [a, b]).length ≥ P.length + 2 then g s else s) S =
      S.map g := by
    apply List.ext_getElem
    · simp
    · intro n hn1 hn2
      rw [List.getElem_mapIdx, List.getElem_map]
      rw [if_pos (by simp)]
  rw [h1, h2]
  simp

/-- The ended stage as produced by `end_operation` on the pending entry:
end time stamped, marker appended, `ended_prematurely` and `completed`
set, video hashes and additional info merged under the source's
truthiness conditions. -/
def endedStage (a : ProductionStage) (video_hashes : List String)
    (additional_info : Option AdditionalInfo) (t : Int) : ProductionStage :=
  let s1 := { a with session_end_time := some t }
  let s2 := { s1 with name := s1.name ++ prematureMarker, ended_prematurely := true }
  let s3 := if !video_hashes.isEmpty then { s2 with video_hashes := video_hashes }
    else s2
  let s4 := match additional_info with
    | some m =>
      if !m.isEmpty then
        { s3 with additional_info :=
            match s3.additional_info with
            | some old => some (dictMerge old m)
            | none => some m }
      else s3
    | none => s3
  { s4 with completed := true }

/-- Renumbering applied to every stage after the inserted clone. -/
def bumpStage (s : ProductionStage) : ProductionStage :=
  { s with number := s.number + 1 }

/-- The clone inserted by `_duplicate_current_operation`. -/
def dupOf (a : ProductionStage) (pos : Nat) : ProductionStage :=
  ProductionStage.fresh a.name a.parent_unit_uuid pos a.schema_stage_id

/-- Closed form of `end_operation` with `premature = true` on a biography
split as completed prefix `P`, pending entry `a` with `a.number = |P|`,
and suffix `S`. -/
theorem end_operation_premature_closed
    (u : Unit) (hashes : List String) (info : Option AdditionalInfo)
    (ts : Option Int) (now : Int) (P : List ProductionStage)
    (a : ProductionStage) (S : List ProductionStage)
    (hbio : u.data.biography = P ++ a :: S)
    (hP : ∀ x ∈ P, x.completed = true)
    (ha : a.completed = false)
    (hnum : a.number = P.length) :
    u.end_operation hashes info true ts now = .ok (Unit.mk { u.data with
      biography := P ++ endedStage a hashes info (ts.getD now)
        :: dupOf a (P.length + 1) :: S.map bumpStage,
      status := if (P ++ endedStage a hashes info (ts.getD now)
          :: dupOf a (P.length + 1) :: S.map bumpStage).all
            (fun s => s.completed) then UnitStatus.built
        else u.data.status,
      employee := none }) := by
  have hopt : ∀ (x : ProductionStage) (T : List ProductionStage) (c : Bool)
      (f : ProductionStage → ProductionStage),
      (if c = true then listModify (P ++ x :: T) P.length f
        else (P ++ x :: T)) = P ++ (if c = true then f x else x) :: T := by
    intro x T c f
    cases c
    · simp
    · simp [listModify_append_cons]
  have hitenum : ∀ (c : Bool) (x : ProductionStage)
      (f : ProductionStage → ProductionStage),
      (∀ s, (f s).number = s.number) →
      (if c = true then f x else x).number = x.number := by
    intro c x f hf
    cases c
    · simp
    · simp [hf]
  unfold Unit.end_operation
  rw [hbio]
  rw [findIdx?_append_cons P a S _ (fun x hx => by simp [hP x hx])
    (by simp [ha])]
  dsimp only
  rw [listModify_append_cons]
  rw [findIdx?_append_cons P _ S _ (fun x hx => by simp [hP x hx])
    (by simp [ha])]
  dsimp only
  rw [getD_append_cons_self]
  dsimp only
  rw [hnum]
  rw [pyInsert_append_cons]
  rw [mapIdx_threshold]
  rw [if_pos (Nat.lt_succ_self P.length)]
  rw [listModify_append_cons]
  rw [if_pos (rfl : true = true)]
  dsimp only
  rw [hopt]
  rcases info with _ | m
  · try dsimp only
    rw [listModify_append_cons]
    rw [getD_append_cons_self]
    try dsimp only
    simp only [apply_ite ProductionStage.number, ite_self]
    rw [if_pos (by
      simp only [List.length_append, List.length_cons, List.length_map]
      omega)]
    rw [set_append_cons']
    simp only [endedStage, dupOf, bumpStage]
    try dsimp only
    simp only [apply_ite ProductionStage.id, apply_ite ProductionStage.name,
      apply_ite ProductionStage.parent_unit_uuid,
      apply_ite ProductionStage.number,
      apply_ite ProductionStage.schema_stage_id,
      apply_ite ProductionStage.session_start_time,
      apply_ite ProductionStage.session_end_time,
      apply_ite ProductionStage.ended_prematurely,
      apply_ite ProductionStage.video_hashes,
      apply_ite ProductionStage.additional_info,
      apply_ite ProductionStage.is_in_db, apply_ite ProductionStage.completed,
      apply_ite ProductionStage.employee_name, ite_self, hnum]
    rfl
  · try dsimp only
    rw [hopt]
    rw [listModify_append_cons]
    rw [getD_append_cons_self]
    try dsimp only
    simp only [apply_ite ProductionStage.number, ite_self]
    rw [if_pos (by
      simp only [List.length_append, List.length_cons, List.length_map]
      omega)]
    rw [set_append_cons']
    simp only [endedStage, dupOf, bumpStage]
    try dsimp only
    simp only [apply_ite ProductionStage.id, apply_ite ProductionStage.name,
      apply_ite ProductionStage.parent_unit_uuid,
      apply_ite ProductionStage.number,
      apply_ite ProductionStage.schema_stage_id,
      apply_ite ProductionStage.session_start_time,
      apply_ite ProductionStage.session_end_time,
      apply_ite ProductionStage.ended_prematurely,
      apply_ite ProductionStage.video_hashes,
      apply_ite ProductionStage.additional_info,
      apply_ite ProductionStage.is_in_db, apply_ite ProductionStage.completed,
      apply_ite ProductionStage.employee_name, ite_self, hnum]
    rfl

theorem getD_append_cons_len (P : List α) (b : α) (T : List α) (d : α)
    (n : Nat) (h : P.length = n) : (P ++ b :: T).getD n d = b := by
  subst h
  exact getD_append_cons_self P b T d

theorem endedStage_completed (a : ProductionStage) (v : List String)
    (m : Option AdditionalInfo) (t : Int) :
    (endedStage a v m t).completed = true := rfl

theorem endedStage_ended_prematurely (a : ProductionStage) (v : List String)
    (m : Option AdditionalInfo) (t : Int) :
    (endedStage a v m t).ended_prematurely = true := by
  unfold endedStage
  dsimp only
  rcases m with _ | mm
  · by_cases hv : v.isEmpty <;> simp [hv]
  · by_cases hv : v.isEmpty <;> by_cases hm : mm.isEmpty <;> simp [hv, hm]

theorem endedStage_number (a : ProductionStage) (v : List String)
    (m : Option AdditionalInfo) (t : Int) :
    (endedStage a v m t).number = a.number := by
  unfold endedStage
  dsimp only
  rcases m with _ | mm
  · by_cases hv : v.isEmpty <;> simp [hv]
  · by_cases hv : v.isEmpty <;> by_cases hm : mm.isEmpty <;> simp [hv, hm]

/-- C5 — on a biography with contiguous numbers 0..N-1 and a pending
stage at index `i`, `end_operation` with `premature = true` succeeds with a
biography of length N+1 in which the originally pending entry is
`completed` and `ended_prematurely`, the inserted clone at the next
position is not completed, and the entries carry contiguous numbers
0..N. -/
theorem C5_end_operation_premature :
    ∀ (u : Unit) (hashes : List String) (info : Option AdditionalInfo)
      (ts : Option Int) (now : Int) (i : Nat),
      (∀ (j : Nat) (hj : j < u.data.biography.length),
        (u.data.biography.get ⟨j, hj⟩).number = j) →
      u.data.biography.findIdx? (fun op => !op.completed) = some i →
      ∃ u' : Unit,
        u.end_operation hashes info true ts now = .ok u' ∧
        u'.data.biography.length = u.data.biography.length + 1 ∧
        (u'.data.biography.getD i defaultStage).completed = true ∧
        (u'.data.biography.getD i defaultStage).ended_prematurely = true ∧
        (u'.data.biography.getD (i + 1) defaultStage).completed = false ∧
        ∀ j : Nat, j < u.data.biography.length + 1 →
          (u'.data.biography.getD j defaultStage).number = j := by
  intro u hashes info ts now i hnum hfind
  rw [List.findIdx?_eq_some_iff_findIdx_eq] at hfind
  obtain ⟨hi, hidx⟩ := hfind
  rw [List.findIdx_eq hi] at hidx
  obtain ⟨hpi, hbef⟩ := hidx
  have hN : u.data.biography.length = i + 1 +
      (u.data.biography.drop (i + 1)).length := by
    rw [List.length_drop]
    omega
  have hbioeq : u.data.biography = u.data.biography.take i ++
      u.data.biography.get ⟨i, hi⟩ :: u.data.biography.drop (i + 1) := by
    rw [List.get_eq_getElem, List.getElem_cons_drop, List.take_append_drop]
  have hPlen : (u.data.biography.take i).length = i := by
    rw [List.length_take]
    omega
  have hP : ∀ x ∈ u.data.biography.take i, x.completed = true := by
    intro x hx
    obtain ⟨j, hj, hxj⟩ := List.getElem_of_mem hx
    have hjlt : j < i := by
      have := hj
      rw [List.length_take] at this
      omega
    have := hbef j hjlt
    rw [← hxj, List.getElem_take]
    simpa using this
  have ha : (u.data.biography.get ⟨i, hi⟩).completed = false := by
    rw [List.get_eq_getElem]
    simpa using hpi
  have hanum : (u.data.biography.get ⟨i, hi⟩).number =
      (u.data.biography.take i).length := by
    rw [hPlen]
    exact hnum i hi
  have hclosed := end_operation_premature_closed u hashes info ts now
    (u.data.biography.take i) (u.data.biography.get ⟨i, hi⟩)
    (u.data.biography.drop (i + 1)) hbioeq hP ha hanum
  refine ⟨_, hclosed, ?_, ?_, ?_, ?_, ?_⟩
  · simp only [Unit.data_mk, List.length_append, List.length_cons,
      List.length_map, hPlen]
    omega
  · simp only [Unit.data_mk]
    rw [getD_append_cons_len _ _ _ _ _ hPlen]
    exact endedStage_completed _ _ _ _
  · simp only [Unit.data_mk]
    rw [getD_append_cons_len _ _ _ _ _ hPlen]
    exact endedStage_ended_prematurely _ _ _ _
  · simp only [Unit.data_mk]
    have hsplit : u.data.biography.take i ++
        endedStage (u.data.biography.get ⟨i, hi⟩) hashes info (ts.getD now) ::
        dupOf (u.data.biography.get ⟨i, hi⟩)
          ((u.data.biography.take i).length + 1) ::
        (u.data.biography.drop (i + 1)).map bumpStage =
        (u.data.biography.take i ++
          [endedStage (u.data.biography.get ⟨i, hi⟩) hashes info (ts.getD now)])
          ++ dupOf (u.data.biography.get ⟨i, hi⟩)
            ((u.data.biography.take i).length + 1) ::
          (u.data.biography.drop (i + 1)).map bumpStage := by
      simp
    rw [hsplit]
    have hlen2 : i + 1 = (u.data.biography.take i ++
        [endedStage (u.data.biography.get ⟨i, hi⟩) hashes info
          (ts.getD now)]).length := by
      simp [hPlen]
    rw [hlen2, getD_append_cons_self]
    rfl
  · intro j hj
    simp only [Unit.data_mk]
    rcases Nat.lt_trichotomy j i with hji | hji | hji
    · rw [List.getD_append _ _ _ _ (by rw [hPlen]; exact hji)]
      have hjlen : j < u.data.biography.length := by omega
      rw [List.getD_eq_getElem _ _ (by rw [hPlen]; exact hji)]
      rw [List.getElem_take]
      exact hnum j hjlen
    · subst hji
      rw [getD_append_cons_len _ _ _ _ _ hPlen]
      rw [endedStage_number]
      exact hnum j hi
    · obtain ⟨k, rfl⟩ : ∃ k, j = i + 1 + k := ⟨j - i - 1, by omega⟩
      rcases Nat.eq_zero_or_pos k with rfl | hk
      · have hsplit : u.data.biography.take i ++
            endedStage (u.data.biography.get ⟨i, hi⟩) hashes info
              (ts.getD now) ::
            dupOf (u.data.biography.get ⟨i, hi⟩)
              ((u.data.biography.take i).length + 1) ::
            (u.data.biography.drop (i + 1)).map bumpStage =
            (u.data.biography.take i ++
              [endedStage (u.data.biography.get ⟨i, hi⟩) hashes info
                (ts.getD now)])
              ++ dupOf (u.data.biography.get ⟨i, hi⟩)
                ((u.data.biography.take i).length + 1) ::
              (u.data.biography.drop (i + 1)).map bumpStage := by
          simp
        rw [hsplit]
        have hlen2 : i + 1 + 0 = (u.data.biography.take i ++
            [endedStage (u.data.biography.get ⟨i, hi⟩) hashes info
              (ts.getD now)]).length := by
          simp [hPlen]
        rw [hlen2, getD_append_cons_self]
        simp [dupOf, ProductionStage.fresh, hPlen]
      · obtain ⟨k0, rfl⟩ : ∃ k0, k = k0 + 1 := ⟨k - 1, by omega⟩
        rw [List.getD_append_right _ _ _ _ (by rw [hPlen]; omega)]
        rw [hPlen]
        have harith : i + 1 + (k0 + 1) - i = k0 + 2 := by omega
        rw [harith, List.getD_cons_succ, List.getD_cons_succ]
        have hk0 : k0 < (u.data.biography.drop (i + 1)).length := by
          rw [List.length_drop]
          omega
        rw [List.getD_eq_getElem _ _ (by simpa using hk0)]
        rw [List.getElem_map]
        have hdrop : (u.data.biography.drop (i + 1))[k0] =
            u.data.biography[i + 1 + k0] := List.getElem_drop _
        rw [hdrop]
        have hnum2 := hnum (i + 1 + k0) (by omega)
        rw [List.get_eq_getElem] at hnum2
        simp [bumpStage, hnum2]
        omega

/-- Pending stage fixture for the C5 witness. -/
def c5stage : ProductionStage := ProductionStage.fresh "c5s" "uuid-5" 0 "t5"

/-- Unit with a single pending stage for the C5 witness. -/
def c5unit : Unit :=
  .mk { baseUnitF (schemaNoReq "c5u") "uuid-5" "50" .production with
    biography := [c5stage] }

/-- C5 witness — ending the single pending stage of the fixture
prematurely yields two entries: the first completed and marked
`ended_prematurely`, the clone pending, numbered 0 and 1. -/
theorem C5_witness :
    Except.map (fun w : Unit =>
      (w.data.biography.length,
        (w.data.biography.getD 0 defaultStage).completed,
        (w.data.biography.getD 0 defaultStage).ended_prematurely,
        (w.data.biography.getD 1 defaultStage).completed,
        (w.data.biography.getD 0 defaultStage).number,
        (w.data.biography.getD 1 defaultStage).number))
      (Unit.end_operation c5unit [] none true (some 5) 5) =
      Except.ok (2, true, true, false, 0, 1) := by
  obtain ⟨u', heq, h1, h2, h3, h4, h5⟩ :=
    C5_end_operation_premature c5unit [] none (some 5) 5 0
      (by
        intro j hj
        have hj1 : j < 1 := hj
        have hj0 : j = 0 := by omega
        subst hj0
        rfl)
      rfl
  rw [heq]
  have h1' : u'.data.biography.length = 2 := h1
  have h4' : (u'.data.biography.getD 1 defaultStage).completed = false := h4
  have h50 : (u'.data.biography.getD 0 defaultStage).number = 0 :=
    h5 0 (by omega)
  have h51 : (u'.data.biography.getD 1 defaultStage).number = 1 :=
    h5 1 (by omega)
  dsimp only [Except.map]
  rw [h1', h2, h3, h4', h50, h51]

/-!  Reassembly (C8): shapes and tree enumerations. -/

mutual

/-- Post-order enumeration of the component tree: components first, the
unit itself last — the order in which `upload_unit` writes unit
documents. -/
def postList : Unit → List Unit
  | .mk d => postListMany d.components_units ++ [.mk d]

/-- `postList` over a component list. -/
def postListMany : List Unit → List Unit
  | [] => []
  | c :: cs => postList c ++ postListMany cs

end

mutual

/-- Depth of the component tree, bounding the fetch recursion. -/
def Unit.depth : Unit → Nat
  | .mk d => 1 + Unit.depthList d.components_units

/-- Maximum depth over a component list. -/
def Unit.depthList : List Unit → Nat
  | [] => 0
  | c :: cs => max (Unit.depth c) (Unit.depthList cs)

end

mutual

/-- The unit graph as reassembled by `get_unit_by_internal_id` from a
faithful store: `uuid`, `internal_id`, schema, biography, components,
`featured_in_int_id`, `passport_short_url` and `is_in_db` survive;
`status` is recomputed from the schema, `passport_ipfs_cid`, `txn_hash`,
`serial_number` and the transient employee reset to `None`, and the
creation time restarts at the current time. -/
def fetchShape : Unit → Int → Unit
  | .mk d, now => .mk {
      status := if d.schema.production_stages.isEmpty then UnitStatus.built
        else UnitStatus.production
      schema := d.schema
      uuid := d.uuid
      internal_id := d.internal_id
      passport_short_url := d.passport_short_url
      passport_ipfs_cid := none
      txn_hash := none
      serial_number := none
      components_units := fetchShapeList d.components_units now
      featured_in_int_id := d.featured_in_int_id
      employee := none
      biography := if d.biography.isEmpty then biographyFactory d.schema d.uuid
        else d.biography
      is_in_db := d.is_in_db
      creation_time := now }

/-- `fetchShape` over a component list. -/
def fetchShapeList : List Unit → Int → List Unit
  | [], _ => []
  | c :: cs, now => fetchShape c now :: fetchShapeList cs now

end

mutual

/-- Observational equality on the persisted document fields: `uuid`,
`internal_id`, schema, biography, `featured_in_int_id`,
`passport_short_url`, `is_in_db`, and the components recursively. -/
def obsEq : Unit → Unit → Bool
  | .mk d1, .mk d2 =>
    (d1.uuid == d2.uuid) && (d1.internal_id == d2.internal_id)
    && decide (d1.schema = d2.schema) && decide (d1.biography = d2.biography)
    && decide (d1.featured_in_int_id = d2.featured_in_int_id)
    && decide (d1.passport_short_url = d2.passport_short_url)
    && (d1.is_in_db == d2.is_in_db)
    && obsEqList d1.components_units d2.components_units

/-- `obsEq` over component lists, position-wise. -/
def obsEqList : List Unit → List Unit → Bool
  | [], [] => true
  | c :: cs, e :: es => obsEq c e && obsEqList cs es
  | _, _ => false

end

theorem getUnitListMany_markTree (cs : List Unit)
    (hIH : ∀ c ∈ cs, getUnitList (markTree c) = (getUnitList c).map markTree) :
    getUnitListMany (markTreeList cs) = (getUnitListMany cs).map markTree := by
  induction cs with
  | nil => rfl
  | cons c cs ih =>
    have h1 : markTreeList (c :: cs) = markTree c :: markTreeList cs := rfl
    have h2 : getUnitListMany (markTree c :: markTreeList cs) =
        getUnitList (markTree c) ++ getUnitListMany (markTreeList cs) := rfl
    rw [h1, h2, hIH c (by simp), ih (fun x hx => hIH x (by simp [hx]))]
    have h3 : getUnitListMany (c :: cs) = getUnitList c ++ getUnitListMany cs :=
      rfl
    rw [h3, List.map_append]

/-- Marking commutes with tree enumeration. -/
theorem getUnitList_markTree :
    ∀ u : Unit, getUnitList (markTree u) = (getUnitList u).map markTree := by
  intro u
  induction u using Unit.strongInd with
  | step d ih =>
    have h1 : markTree (Unit.mk d) = Unit.mk { d with
        components_units := markTreeList d.components_units,
        biography := d.biography.map fun s => { s with is_in_db := true },
        is_in_db := true } := rfl
    rw [h1]
    have h2 : getUnitList (Unit.mk { d with
        components_units := markTreeList d.components_units,
        biography := d.biography.map fun s => { s with is_in_db := true },
        is_in_db := true }) = Unit.mk { d with
        components_units := markTreeList d.components_units,
        biography := d.biography.map fun s => { s with is_in_db := true },
        is_in_db := true } :: getUnitListMany (markTreeList d.components_units) :=
      rfl
    rw [h2, getUnitListMany_markTree d.components_units (fun c hc => ih c hc)]
    rfl

theorem postListMany_perm (cs : List Unit)
    (hIH : ∀ c ∈ cs, (postList c).Perm (getUnitList c)) :
    (postListMany cs).Perm (getUnitListMany cs) := by
  induction cs with
  | nil => exact List.Perm.refl _
  | cons c cs ih =>
    have h1 : postListMany (c :: cs) = postList c ++ postListMany cs := rfl
    have h2 : getUnitListMany (c :: cs) = getUnitList c ++ getUnitListMany cs :=
      rfl
    rw [h1, h2]
    exact List.Perm.append (hIH c (by simp))
      (ih fun x hx => hIH x (by simp [hx]))

/-- The post-order enumeration is a permutation of the pre-order one. -/
theorem postList_perm : ∀ u : Unit, (postList u).Perm (getUnitList u) := by
  intro u
  induction u using Unit.strongInd with
  | step d ih =>
    have h1 : postList (Unit.mk d) =
        postListMany d.components_units ++ [Unit.mk d] := rfl
    have h2 : getUnitList (Unit.mk d) =
        Unit.mk d :: getUnitListMany d.components_units := rfl
    rw [h1, h2]
    exact (List.perm_append_singleton _ _).trans
      (List.Perm.cons _ (postListMany_perm d.components_units
        (fun c hc => ih c hc)))

theorem docsOfList_eq (cs : List Unit)
    (hIH : ∀ c ∈ cs, docsOf c = (postList (markTree c)).map Unit.dict_data) :
    docsOfList cs = (postListMany (markTreeList cs)).map Unit.dict_data := by
  induction cs with
  | nil => rfl
  | cons c cs ih =>
    have h1 : docsOfList (c :: cs) = docsOf c ++ docsOfList cs := rfl
    have h2 : postListMany (markTreeList (c :: cs)) =
        postList (markTree c) ++ postListMany (markTreeList cs) := rfl
    rw [h1, h2, List.map_append, hIH c (by simp),
      ih (fun x hx => hIH x (by simp [hx]))]

/-- The unit documents of a first upload are the post-order marked nodes'
documents. -/
theorem docsOf_eq :
    ∀ u : Unit, docsOf u = (postList (markTree u)).map Unit.dict_data := by
  intro u
  induction u using Unit.strongInd with
  | step d ih =>
    have h1 : docsOf (Unit.mk d) = docsOfList d.components_units ++
        [(Unit.mk { d with
          components_units := markTreeList d.components_units,
          is_in_db := true }).dict_data] := rfl
    have h2 : postList (markTree (Unit.mk d)) =
        postListMany (markTreeList d.components_units) ++ [markTree (Unit.mk d)] :=
      rfl
    rw [h1, h2, List.map_append, docsOfList_eq d.components_units
      (fun c hc => ih c hc)]
    have h3 : (markTree (Unit.mk d)).dict_data = (Unit.mk { d with
        components_units := markTreeList d.components_units,
        is_in_db := true }).dict_data := by
      have h0 : markTree (Unit.mk d) = Unit.mk { d with
          components_units := markTreeList d.components_units,
          biography := d.biography.map fun s => { s with is_in_db := true },
          is_in_db := true } := rfl
      rw [h0]
      unfold Unit.dict_data Unit.components_internal_ids
      simp only [Unit.data_mk]
    rw [List.map_singleton, h3]

theorem stagesOfList_eq (cs : List Unit)
    (hIH : ∀ c ∈ cs, stagesOf c =
      ((postList (markTree c)).map fun y => y.data.biography).flatten) :
    stagesOfList cs =
      ((postListMany (markTreeList cs)).map fun y => y.data.biography).flatten := by
  induction cs with
  | nil => rfl
  | cons c cs ih =>
    have h1 : stagesOfList (c :: cs) = stagesOf c ++ stagesOfList cs := rfl
    have h2 : postListMany (markTreeList (c :: cs)) =
        postList (markTree c) ++ postListMany (markTreeList cs) := rfl
    rw [h1, h2, List.map_append, List.flatten_append, hIH c (by simp),
      ih (fun x hx => hIH x (by simp [hx]))]

/-- The stage documents of a first upload are the concatenation of the
post-order marked nodes' biographies. -/
theorem stagesOf_eq :
    ∀ u : Unit, stagesOf u =
      ((postList (markTree u)).map fun y => y.data.biography).flatten := by
  intro u
  induction u using Unit.strongInd with
  | step d ih =>
    have h1 : stagesOf (Unit.mk d) = stagesOfList d.components_units ++
        d.biography.map (fun s => { s with is_in_db := true }) := rfl
    have h2 : postList (markTree (Unit.mk d)) =
        postListMany (markTreeList d.components_units) ++ [markTree (Unit.mk d)] :=
      rfl
    rw [h1, h2, List.map_append, List.flatten_append,
      stagesOfList_eq d.components_units (fun c hc => ih c hc)]
    have h0 : markTree (Unit.mk d) = Unit.mk { d with
        components_units := markTreeList d.components_units,
        biography := d.biography.map fun s => { s with is_in_db := true },
        is_in_db := true } := rfl
    rw [h0]
    simp

/-- A unit heads its own tree enumeration. -/
theorem self_mem_getUnitList (c : Unit) : c ∈ getUnitList c := by
  cases c with
  | mk d =>
    have h : getUnitList (Unit.mk d) =
        Unit.mk d :: getUnitListMany d.components_units := rfl
    rw [h]
    exact List.mem_cons_self _ _

theorem mem_getUnitListMany_iff (cs : List Unit) (x : Unit) :
    x ∈ getUnitListMany cs ↔ ∃ z ∈ cs, x ∈ getUnitList z := by
  induction cs with
  | nil => simp [getUnitListMany]
  | cons y cs ih =>
    have h : getUnitListMany (y :: cs) = getUnitList y ++ getUnitListMany cs :=
      rfl
    rw [h, List.mem_append, ih]
    constructor
    · rintro (hy | ⟨z, hz, hx⟩)
      · exact ⟨y, by simp, hy⟩
      · exact ⟨z, by simp [hz], hx⟩
    · rintro ⟨z, hz, hx⟩
      rcases List.mem_cons.mp hz with rfl | hz2
      · exact Or.inl hx
      · exact Or.inr ⟨z, hz2, hx⟩

/-- Tree enumeration is closed under taking components. -/
theorem getUnitList_closed :
    ∀ w : Unit, ∀ x ∈ getUnitList w, ∀ c ∈ x.data.components_units,
      c ∈ getUnitList w := by
  intro w
  induction w using Unit.strongInd with
  | step d ih =>
    intro x hx c hc
    have h1 : getUnitList (Unit.mk d) =
        Unit.mk d :: getUnitListMany d.components_units := rfl
    rw [h1] at hx ⊢
    rcases List.mem_cons.mp hx with rfl | hx2
    · simp only [Unit.data_mk] at hc
      exact List.mem_cons_of_mem _
        ((mem_getUnitListMany_iff _ _).mpr ⟨c, hc, self_mem_getUnitList c⟩)
    · obtain ⟨z, hz, hxz⟩ := (mem_getUnitListMany_iff _ _).mp hx2
      exact List.mem_cons_of_mem _
        ((mem_getUnitListMany_iff _ _).mpr ⟨z, hz, ih z hz x hxz c hc⟩)

theorem biographyFactory_nil (sch : ProductionSchema) (uuid : String)
    (h : sch.production_stages = []) : biographyFactory sch uuid = [] := by
  unfold biographyFactory
  rw [h]
  rfl

theorem dict_data_internal_id (u : Unit) :
    u.dict_data.internal_id = u.data.internal_id := rfl

theorem depth_le_depthList (cs : List Unit) :
    ∀ c ∈ cs, Unit.depth c ≤ Unit.depthList cs := by
  induction cs with
  | nil => intro c hc; cases hc
  | cons y cs ih =>
    intro c hc
    have h : Unit.depthList (y :: cs) = max (Unit.depth y) (Unit.depthList cs) :=
      rfl
    rw [h]
    rcases List.mem_cons.mp hc with rfl | hc2
    · exact Nat.le_max_left _ _
    · exact le_trans (ih c hc2) (Nat.le_max_right _ _)

/-- Finding a unit document by internal id among the documents of nodes
with pairwise distinct internal ids returns the node's own document. -/
theorem find?_docs (L : List Unit) (x : Unit) (hx : x ∈ L)
    (hnd : (L.map fun y => y.data.internal_id).Nodup) :
    (L.map Unit.dict_data).find?
      (fun doc => doc.internal_id == x.data.internal_id) = some x.dict_data := by
  induction L with
  | nil => cases hx
  | cons y L ih =>
    rw [List.map_cons]
    rcases List.mem_cons.mp hx with rfl | hx2
    · exact List.find?_cons_of_pos _ (by
        rw [dict_data_internal_id]
        exact beq_self_eq_true _)
    · have hne : y.data.internal_id ≠ x.data.internal_id := by
        intro heq
        rw [List.map_cons, List.nodup_cons] at hnd
        exact hnd.1 (heq ▸ List.mem_map_of_mem _ hx2)
      rw [List.find?_cons_of_neg _ (by
        rw [dict_data_internal_id]
        simpa using hne)]
      rw [List.map_cons, List.nodup_cons] at hnd
      exact ih hx2 hnd.2

theorem filter_flatten_nil (L : List Unit) (p : ProductionStage → Bool)
    (h : ∀ y ∈ L, ∀ s ∈ y.data.biography, p s = false) :
    ((L.map fun y => y.data.biography).flatten).filter p = [] := by
  induction L with
  | nil => rfl
  | cons y L ih =>
    rw [List.map_cons, List.flatten_cons, List.filter_append]
    rw [List.filter_eq_nil_iff.mpr (by
      intro s hs
      simp [h y (by simp) s hs]),
      ih (fun z hz s hs => h z (by simp [hz]) s hs)]
    rfl

/-- Filtering the concatenated biographies by a predicate satisfied
exactly by one node's stages returns that node's biography. -/
theorem filter_flatten_single (L : List Unit) (x : Unit)
    (p : ProductionStage → Bool) (hx : x ∈ L) (hnd : L.Nodup)
    (hself : ∀ s ∈ x.data.biography, p s = true)
    (hother : ∀ y ∈ L, y ≠ x → ∀ s ∈ y.data.biography, p s = false) :
    ((L.map fun y => y.data.biography).flatten).filter p =
      x.data.biography := by
  obtain ⟨L1, L2, rfl⟩ := List.append_of_mem hx
  have hmid := List.nodup_middle.mp hnd
  rw [List.nodup_cons] at hmid
  have hx1 : x ∉ L1 := fun h => hmid.1 (List.mem_append_left _ h)
  have hx2 : x ∉ L2 := fun h => hmid.1 (List.mem_append_right _ h)
  rw [List.map_append, List.flatten_append, List.filter_append,
    List.map_cons, List.flatten_cons, List.filter_append]
  rw [filter_flatten_nil L1 p (fun y hy s hs =>
    hother y (List.mem_append_left _ hy) (fun he => hx1 (he ▸ hy)) s hs)]
  rw [filter_flatten_nil L2 p (fun y hy s hs =>
    hother y (List.mem_append_right _ (List.mem_cons_of_mem _ hy))
      (fun he => hx2 (he ▸ hy)) s hs)]
  rw [List.filter_eq_self.mpr hself]
  simp

theorem obsEqList_fetchShapeList (cs : List Unit) (now : Int)
    (hIH : ∀ c ∈ cs,
      (∀ x ∈ getUnitList c, x.data.biography = [] →
        x.data.schema.production_stages = []) →
      obsEq c (fetchShape c now) = true)
    (hEmpty : ∀ c ∈ cs, ∀ x ∈ getUnitList c, x.data.biography = [] →
      x.data.schema.production_stages = []) :
    obsEqList cs (fetchShapeList cs now) = true := by
  induction cs with
  | nil => rfl
  | cons c cs ih =>
    have h1 : fetchShapeList (c :: cs) now =
        fetchShape c now :: fetchShapeList cs now := rfl
    have h2 : obsEqList (c :: cs) (fetchShape c now :: fetchShapeList cs now) =
        (obsEq c (fetchShape c now) && obsEqList cs (fetchShapeList cs now)) :=
      rfl
    rw [h1, h2, Bool.and_eq_true]
    exact ⟨hIH c (by simp) (hEmpty c (by simp)),
      ih (fun z hz => hIH z (by simp [hz]))
        (fun z hz => hEmpty z (by simp [hz]))⟩

/-- The reassembled unit matches the stored one on every persisted
document field. -/
theorem obsEq_fetchShape :
    ∀ u : Unit, ∀ now : Int,
      (∀ x ∈ getUnitList u, x.data.biography = [] →
        x.data.schema.production_stages = []) →
      obsEq u (fetchShape u now) = true := by
  intro u
  induction u using Unit.strongInd with
  | step d ih =>
    intro now hEmpty
    have h1 : fetchShape (Unit.mk d) now = Unit.mk {
        status := if d.schema.production_stages.isEmpty then UnitStatus.built
          else UnitStatus.production
        schema := d.schema
        uuid := d.uuid
        internal_id := d.internal_id
        passport_short_url := d.passport_short_url
        passport_ipfs_cid := none
        txn_hash := none
        serial_number := none
        components_units := fetchShapeList d.components_units now
        featured_in_int_id := d.featured_in_int_id
        employee := none
        biography := if d.biography.isEmpty then
          biographyFactory d.schema d.uuid else d.biography
        is_in_db := d.is_in_db
        creation_time := now } := rfl
    rw [h1]
    have h2 : obsEq (Unit.mk d) (Unit.mk {
        status := if d.schema.production_stages.isEmpty then UnitStatus.built
          else UnitStatus.production
        schema := d.schema
        uuid := d.uuid
        internal_id := d.internal_id
        passport_short_url := d.passport_short_url
        passport_ipfs_cid := none
        txn_hash := none
        serial_number := none
        components_units := fetchShapeList d.components_units now
        featured_in_int_id := d.featured_in_int_id
        employee := none
        biography := if d.biography.isEmpty then
          biographyFactory d.schema d.uuid else d.biography
        is_in_db := d.is_in_db
        creation_time := now }) =
        ((d.uuid == d.uuid) && (d.internal_id == d.internal_id)
          && decide (d.schema = d.schema)
          && decide (d.biography = if d.biography.isEmpty then
              biographyFactory d.schema d.uuid else d.biography)
          && decide (d.featured_in_int_id = d.featured_in_int_id)
          && decide (d.passport_short_url = d.passport_short_url)
          && (d.is_in_db == d.is_in_db)
          && obsEqList d.components_units (fetchShapeList d.components_units now)) :=
      rfl
    rw [h2]
    have hbio : d.biography = (if d.biography.isEmpty then
        biographyFactory d.schema d.uuid else d.biography) := by
      cases hb : d.biography with
      | nil =>
        simp only [List.isEmpty_nil, if_true]
        rw [biographyFactory_nil d.schema d.uuid]
        exact hEmpty (Unit.mk d) (self_mem_getUnitList _) hb
      | cons s rest => simp
    rw [← hbio]
    simp only [beq_self_eq_true, decide_eq_true_eq, Bool.and_true, Bool.true_and,
      decide_True]
    exact obsEqList_fetchShapeList d.components_units now
      (fun c hc hE => ih c hc now hE)
      (fun c hc x hx hb => hEmpty x
        (by
          have hgl : getUnitList (Unit.mk d) =
              Unit.mk d :: getUnitListMany d.components_units := rfl
          rw [hgl]
          exact List.mem_cons_of_mem _
            ((mem_getUnitListMany_iff _ _).mpr ⟨c, hc, hx⟩))
        hb)

theorem markTree_iid (y : Unit) :
    (markTree y).data.internal_id = y.data.internal_id := by
  cases y
  rfl

theorem markTree_uuid (y : Unit) :
    (markTree y).data.uuid = y.data.uuid := by
  cases y
  rfl

theorem markTree_schema (y : Unit) :
    (markTree y).data.schema = y.data.schema := by
  cases y
  rfl

theorem markTree_biography (y : Unit) :
    (markTree y).data.biography =
      y.data.biography.map fun s => { s with is_in_db := true } := by
  cases y
  rfl

theorem dict_data_uuid (u : Unit) : u.dict_data.uuid = u.data.uuid := rfl

theorem dict_data_schema_id (u : Unit) :
    u.dict_data.schema_id = u.data.schema.schema_id := rfl

theorem dict_data_components (u : Unit) :
    u.dict_data.components_internal_ids =
      u.data.components_units.map fun c => c.data.internal_id := rfl

theorem getUnitsByIds_correct (db : DB) (now : Int) (F : Nat)
    (comps : List Unit)
    (hIH : ∀ c ∈ comps, getUnitByInternalId F db c.data.internal_id now =
      .ok (fetchShape c now)) :
    getUnitsByIds F db now (comps.map fun c => c.data.internal_id) =
      .ok (fetchShapeList comps now) := by
  induction comps with
  | nil =>
    rw [List.map_nil]
    simp only [getUnitsByIds, fetchShapeList]
  | cons c cs ih =>
    rw [List.map_cons]
    simp only [getUnitsByIds]
    rw [hIH c (by simp)]
    dsimp only
    rw [ih (fun x hx => hIH x (by simp [hx]))]
    simp only [fetchShapeList]

/-- Fetch correctness over a faithful store: fetching any node of the
uploaded tree by internal id reassembles that node's `fetchShape`. -/
theorem fetch_correct
    (u : Unit) (S0 : List ProductionSchema) (now : Int)
    (hnd_uuid : ((getUnitList (markTree u)).map fun x => x.data.uuid).Nodup)
    (hnd_iid :
      ((getUnitList (markTree u)).map fun x => x.data.internal_id).Nodup)
    (hparent : ∀ x ∈ getUnitList (markTree u), ∀ s ∈ x.data.biography,
      s.parent_unit_uuid = x.data.uuid)
    (hsorted : ∀ x ∈ getUnitList (markTree u),
      x.data.biography.Pairwise fun a b => a.number ≤ b.number)
    (hschema : ∀ x ∈ getUnitList (markTree u),
      S0.find? (fun s => s.schema_id == x.data.schema.schema_id) =
        some x.data.schema) :
    ∀ x, x ∈ getUnitList (markTree u) → ∀ fuel, Unit.depth x ≤ fuel →
      getUnitByInternalId fuel ⟨docsOf u, stagesOf u, S0⟩
        x.data.internal_id now = .ok (fetchShape x now) := by
  have hperm := postList_perm (markTree u)
  have hLnd_iid : ((postList (markTree u)).map
      fun x => x.data.internal_id).Nodup :=
    ((hperm.map _).nodup_iff).mpr hnd_iid
  have hLnd : (postList (markTree u)).Nodup := List.Nodup.of_map _ hLnd_iid
  have hLuuid : ((postList (markTree u)).map fun x => x.data.uuid).Nodup :=
    ((hperm.map _).nodup_iff).mpr hnd_uuid
  intro x
  induction x using Unit.strongInd with
  | step e ih =>
    intro hxV fuel hfuel
    have hdepth : Unit.depth (Unit.mk e) = 1 + Unit.depthList e.components_units :=
      rfl
    obtain ⟨F, rfl⟩ : ∃ F, fuel = F + 1 := by
      cases fuel with
      | zero =>
        exfalso
        rw [hdepth] at hfuel
        omega
      | succ F => exact ⟨F, rfl⟩
    have hxL : Unit.mk e ∈ postList (markTree u) := hperm.mem_iff.mpr hxV
    have hfind : ((postList (markTree u)).map Unit.dict_data).find?
        (fun doc => doc.internal_id == (Unit.mk e).data.internal_id) =
        some (Unit.mk e).dict_data :=
      find?_docs _ _ hxL hLnd_iid
    have hfilter : (((postList (markTree u)).map
          fun y => y.data.biography).flatten).filter
        (fun s => s.parent_unit_uuid == (Unit.mk e).dict_data.uuid) =
        (Unit.mk e).data.biography := by
      apply filter_flatten_single _ _ _ hxL hLnd
      · intro s hs
        rw [dict_data_uuid]
        have := hparent (Unit.mk e) hxV s hs
        simp [this]
      · intro y hy hne s hs
        have hyV : y ∈ getUnitList (markTree u) := hperm.mem_iff.mp hy
        have hyuuid := hparent y hyV s hs
        have hneq : y.data.uuid ≠ (Unit.mk e).data.uuid := by
          intro heq
          exact hne (List.inj_on_of_nodup_map hLuuid hy hxL heq)
        rw [dict_data_uuid]
        simp [hyuuid]
        exact hneq
    have hsort : ((Unit.mk e).data.biography).mergeSort
        (fun a b => decide (a.number ≤ b.number)) = (Unit.mk e).data.biography :=
      List.mergeSort_of_sorted (by
        have := hsorted (Unit.mk e) hxV
        exact this.imp fun hab => by simpa using hab)
    have hsch : getSchemaById ⟨docsOf u, stagesOf u, S0⟩
        (Unit.mk e).dict_data.schema_id = .ok e.schema := by
      unfold getSchemaById
      rw [dict_data_schema_id]
      simp only [Unit.data_mk]
      have := hschema (Unit.mk e) hxV
      simp only [Unit.data_mk] at this
      rw [this]
    have hcomps : getUnitsByIds F ⟨docsOf u, stagesOf u, S0⟩ now
        ((Unit.mk e).dict_data.components_internal_ids) =
        .ok (fetchShapeList e.components_units now) := by
      rw [dict_data_components]
      simp only [Unit.data_mk]
      apply getUnitsByIds_correct
      intro c hc
      apply ih c hc (getUnitList_closed (markTree u) (Unit.mk e) hxV c
        (by simpa using hc)) F
      have h1 : Unit.depth c ≤ Unit.depthList e.components_units :=
        depth_le_depthList _ c hc
      rw [hdepth] at hfuel
      omega
    have heq : getUnitByInternalId (F + 1) ⟨docsOf u, stagesOf u, S0⟩
        (Unit.mk e).data.internal_id now =
        match (⟨docsOf u, stagesOf u, S0⟩ : DB).unitDocs.find?
          (fun d => d.internal_id == (Unit.mk e).data.internal_id) with
        | none => .error "UnitNotFoundError"
        | some doc =>
          let stages := (⟨docsOf u, stagesOf u, S0⟩ : DB).stageDocs.filter
            fun s => s.parent_unit_uuid == doc.uuid
          let stages := stages.mergeSort fun a b => decide (a.number ≤ b.number)
          match getSchemaById ⟨docsOf u, stagesOf u, S0⟩ doc.schema_id with
          | .error _ => .error "UnitNotFoundError"
          | .ok schema =>
            match getUnitsByIds F ⟨docsOf u, stagesOf u, S0⟩ now
              doc.components_internal_ids with
            | .error _ => .error "UnitNotFoundError"
            | .ok components =>
              let status := if schema.production_stages.isEmpty
                then UnitStatus.built else UnitStatus.production
              .ok (Unit.mk {
                status := status
                schema := schema
                uuid := doc.uuid
                internal_id := doc.internal_id
                passport_short_url := doc.passport_short_url
                passport_ipfs_cid := none
                txn_hash := none
                serial_number := none
                components_units := components
                featured_in_int_id := doc.featured_in_int_id
                employee := none
                biography := if stages.isEmpty
                  then biographyFactory schema doc.uuid else stages
                is_in_db := doc.is_in_db
                creation_time := now }) := by
      unfold getUnitByInternalId
      rfl
    rw [heq]
    have hdocs : (⟨docsOf u, stagesOf u, S0⟩ : DB).unitDocs =
        (postList (markTree u)).map Unit.dict_data := docsOf_eq u
    have hstages : (⟨docsOf u, stagesOf u, S0⟩ : DB).stageDocs =
        ((postList (markTree u)).map fun y => y.data.biography).flatten :=
      stagesOf_eq u
    rw [hdocs, hstages, hfind]
    dsimp only
    rw [hfilter, hsort, hsch]
    dsimp only
    rw [hcomps]
    rfl

theorem depthList_markTreeList (cs : List Unit)
    (hIH : ∀ c ∈ cs, Unit.depth (markTree c) = Unit.depth c) :
    Unit.depthList (markTreeList cs) = Unit.depthList cs := by
  induction cs with
  | nil => rfl
  | cons c cs ih =>
    have h1 : markTreeList (c :: cs) = markTree c :: markTreeList cs := rfl
    have h2 : Unit.depthList (markTree c :: markTreeList cs) =
        max (Unit.depth (markTree c)) (Unit.depthList (markTreeList cs)) := rfl
    have h3 : Unit.depthList (c :: cs) =
        max (Unit.depth c) (Unit.depthList cs) := rfl
    rw [h1, h2, h3, hIH c (by simp), ih (fun x hx => hIH x (by simp [hx]))]

/-- Marking preserves tree depth. -/
theorem markTree_depth : ∀ y : Unit, Unit.depth (markTree y) = Unit.depth y := by
  intro y
  induction y using Unit.strongInd with
  | step d ih =>
    have h1 : markTree (Unit.mk d) = Unit.mk { d with
        components_units := markTreeList d.components_units,
        biography := d.biography.map fun s => { s with is_in_db := true },
        is_in_db := true } := rfl
    have h2 : Unit.depth (Unit.mk { d with
        components_units := markTreeList d.components_units,
        biography := d.biography.map fun s => { s with is_in_db := true },
        is_in_db := true }) =
        1 + Unit.depthList (markTreeList d.components_units) := rfl
    have h3 : Unit.depth (Unit.mk d) = 1 + Unit.depthList d.components_units :=
      rfl
    rw [h1, h2, h3, depthList_markTreeList d.components_units
      (fun c hc => ih c hc)]

/-- C8 amended — for a fresh unit tree with pairwise distinct uuids and
internal ids, per-node biographies owned by their unit and sorted by
number, and schemas resolvable in the store, persisting through
`upload_unit` into an empty store and fetching back by internal id
reassembles a unit graph that agrees with the persisted in-memory unit on
every stored document field — uuid, internal id, schema, biography (sorted
by number), recursively fetched components, `featured_in_int_id`,
`passport_short_url` and `is_in_db` — while `status`, `passport_ipfs_cid`,
`txn_hash`, `serial_number` and the creation time are reset to constructor
defaults rather than restored. -/
theorem C8_roundtrip_amended :
    ∀ (u : Unit) (S0 : List ProductionSchema) (now : Int),
      allFresh u = true →
      ((getUnitList u).map fun x => x.data.uuid).Nodup →
      ((getUnitList u).map fun x => x.data.internal_id).Nodup →
      (∀ x ∈ getUnitList u, ∀ s ∈ x.data.biography,
        s.parent_unit_uuid = x.data.uuid) →
      (∀ x ∈ getUnitList u, x.data.biography.Pairwise
        fun a b => a.number ≤ b.number) →
      (∀ x ∈ getUnitList u, x.data.biography = [] →
        x.data.schema.production_stages = []) →
      (∀ x ∈ getUnitList u, S0.find?
        (fun s => s.schema_id == x.data.schema.schema_id) =
          some x.data.schema) →
      getUnitByInternalId (Unit.depth u)
        (uploadUnit u ⟨[], [], S0⟩).2
        (uploadUnit u ⟨[], [], S0⟩).1.data.internal_id now =
        .ok (fetchShape (uploadUnit u ⟨[], [], S0⟩).1 now) ∧
      obsEq (uploadUnit u ⟨[], [], S0⟩).1
        (fetchShape (uploadUnit u ⟨[], [], S0⟩).1 now) = true := by
  intro u S0 now hfresh hnu hni hpar hsort hemp hsch
  have hclosed := uploadUnit_fresh u hfresh ⟨[], [], S0⟩
  have hXlist : getUnitList (markTree u) = (getUnitList u).map markTree :=
    getUnitList_markTree u
  have hmem : ∀ x ∈ getUnitList (markTree u),
      ∃ y ∈ getUnitList u, x = markTree y := by
    intro x hx
    rw [hXlist] at hx
    obtain ⟨y, hy, rfl⟩ := List.mem_map.mp hx
    exact ⟨y, hy, rfl⟩
  have hnuV : ((getUnitList (markTree u)).map fun x => x.data.uuid).Nodup := by
    rw [hXlist, List.map_map]
    have : ((fun x : Unit => x.data.uuid) ∘ markTree) =
        fun x : Unit => x.data.uuid := by
      funext x
      exact markTree_uuid x
    rw [this]
    exact hnu
  have hniV :
      ((getUnitList (markTree u)).map fun x => x.data.internal_id).Nodup := by
    rw [hXlist, List.map_map]
    have : ((fun x : Unit => x.data.internal_id) ∘ markTree) =
        fun x : Unit => x.data.internal_id := by
      funext x
      exact markTree_iid x
    rw [this]
    exact hni
  have hparV : ∀ x ∈ getUnitList (markTree u), ∀ s ∈ x.data.biography,
      s.parent_unit_uuid = x.data.uuid := by
    intro x hx s hs
    obtain ⟨y, hy, rfl⟩ := hmem x hx
    rw [markTree_biography] at hs
    obtain ⟨s0, hs0, rfl⟩ := List.mem_map.mp hs
    rw [markTree_uuid]
    exact hpar y hy s0 hs0
  have hsortV : ∀ x ∈ getUnitList (markTree u),
      x.data.biography.Pairwise fun a b => a.number ≤ b.number := by
    intro x hx
    obtain ⟨y, hy, rfl⟩ := hmem x hx
    rw [markTree_biography]
    exact List.Pairwise.map _ (fun a b hab => hab) (hsort y hy)
  have hempV : ∀ x ∈ getUnitList (markTree u), x.data.biography = [] →
      x.data.schema.production_stages = [] := by
    intro x hx hb
    obtain ⟨y, hy, rfl⟩ := hmem x hx
    rw [markTree_biography] at hb
    rw [markTree_schema]
    exact hemp y hy (List.map_eq_nil_iff.mp hb)
  have hschV : ∀ x ∈ getUnitList (markTree u), S0.find?
      (fun s => s.schema_id == x.data.schema.schema_id) =
        some x.data.schema := by
    intro x hx
    obtain ⟨y, hy, rfl⟩ := hmem x hx
    rw [markTree_schema]
    exact hsch y hy
  have hfc := fetch_correct u S0 now hnuV hniV hparV hsortV hschV
    (markTree u) (self_mem_getUnitList _) (Unit.depth u)
    (le_of_eq (markTree_depth u))
  have hdb : (uploadUnit u ⟨[], [], S0⟩).2 =
      (⟨docsOf u, stagesOf u, S0⟩ : DB) := by
    rw [hclosed]
    dsimp only
    rw [List.nil_append, List.nil_append]
  have hu1 : (uploadUnit u ⟨[], [], S0⟩).1 = markTree u := by
    rw [hclosed]
  rw [hdb, hu1, markTree_iid]
  constructor
  · rw [← markTree_iid]
    exact hfc
  · exact obsEq_fetchShape (markTree u) now hempV

/-- Schema with one stage template for the C8 counterexample. -/
def c8schema : ProductionSchema where
  schema_id := "c8s"
  unit_name := "unit-c8s"
  production_stages := [⟨"st", "t8"⟩]
  required_components_schema_ids := none
  is_composite := false
  is_a_component := false

/-- Stage of the C8 counterexample unit. -/
def c8stage : ProductionStage := ProductionStage.fresh "st" "uuid-8" 0 "t8"

/-- Unit in `revision` status with populated passport fields. -/
def c8unit : Unit :=
  .mk { baseUnitF c8schema "uuid-8" "80" .revision with
    biography := [c8stage]
    txn_hash := some "t8h"
    passport_ipfs_cid := some "cid8"
    serial_number := some "sn8" }

/-- Store holding only the schema. -/
def c8db0 : DB := ⟨[], [], [c8schema]⟩

/-- C8 counterexample — after persisting a `revision`-status unit with a
transaction hash, a passport cid and a serial number, fetching it back
yields `production` status and `None` for all three fields: the source
never passes them to the `Unit` constructor on reassembly. -/
theorem C8_counterexample :
    (uploadUnit c8unit c8db0).1.data.status = UnitStatus.revision ∧
    (uploadUnit c8unit c8db0).1.data.txn_hash = some "t8h" ∧
    Except.map (fun v : Unit => (v.data.status, v.data.txn_hash,
        v.data.passport_ipfs_cid, v.data.serial_number))
      (getUnitByInternalId 1 (uploadUnit c8unit c8db0).2
        (uploadUnit c8unit c8db0).1.data.internal_id 0) =
      .ok (UnitStatus.production, none, none, none) := by
  have hclosed := uploadUnit_fresh c8unit rfl c8db0
  have hu1 : (uploadUnit c8unit c8db0).1 = markTree c8unit := by
    rw [hclosed]
  have hdb : (uploadUnit c8unit c8db0).2 =
      (⟨docsOf c8unit, stagesOf c8unit, [c8schema]⟩ : DB) := by
    rw [hclosed]
    simp [c8db0]
  refine ⟨by rw [hu1]; rfl, by rw [hu1]; rfl, ?_⟩
  rw [hu1, hdb]
  have hfc := fetch_correct c8unit [c8schema] 0 (by decide) (by decide)
    (by decide) (by decide) (by decide) (markTree c8unit)
    (self_mem_getUnitList _) 1 (by decide)
  rw [hfc]
  rfl

/-- Component fixture for the C8 witness. -/
def c8wcomp : Unit := .mk (baseUnitF (schemaNoReq "c8wc") "uuid-8wc" "81" .built)

/-- Stage of the C8 witness composite. -/
def c8wstage : ProductionStage := ProductionStage.fresh "ws" "uuid-8w" 0 "wt"

/-- Composite fixture for the C8 witness. -/
def c8wunit : Unit :=
  .mk { baseUnitF (schemaReq "c8w" ["c8wc"]) "uuid-8w" "82" .production with
    biography := [c8wstage]
    components_units := [c8wcomp] }

/-- Schema collection for the C8 witness. -/
def c8wS0 : List ProductionSchema := [schemaNoReq "c8wc", schemaReq "c8w" ["c8wc"]]

/-- C8 witness — the amended round trip at a concrete two-unit composite:
the fetch reassembles the `fetchShape` of the persisted tree and the
observational fields agree. -/
theorem C8_witness :
    getUnitByInternalId (Unit.depth c8wunit)
      (uploadUnit c8wunit ⟨[], [], c8wS0⟩).2
      (uploadUnit c8wunit ⟨[], [], c8wS0⟩).1.data.internal_id 7 =
      .ok (fetchShape (uploadUnit c8wunit ⟨[], [], c8wS0⟩).1 7) ∧
    obsEq (uploadUnit c8wunit ⟨[], [], c8wS0⟩).1
      (fetchShape (uploadUnit c8wunit ⟨[], [], c8wS0⟩).1 7) = true := by
  exact C8_roundtrip_amended c8wunit c8wS0 7 rfl (by decide) (by decide)
    (by decide) (by decide) (by decide) (by decide)

end Feecc
